import Mathlib

/-!
Verification of the IPL data-analysis repository (`data_loader.py`,
`data_processor.py`) against its natural-language specification.

The Python code is shallowly embedded:

* strings handled character-wise (season labels, team names) are `List Char`;
* tables are `List` of row structures; pandas column operations become
  list operations on those rows;
* `int(...)` and other fallible operations return `Option`;
* the per-KPI `try/except` structure of `calculate_kpis` is an `Except`
  computation over an explicit exception-kind type.

Machine integers do not overflow in the modelled code paths (pandas uses
arbitrary precision only conceptually here; all arithmetic is on small
counts and run totals), so `Int`/`Nat` are used directly.
-/

namespace IPL

/-! ### Character-level Python primitives (ASCII model)

`str.strip`, `str.lower`, `str.title`, `str.split` and `int(...)` as used by
`clean_data` in `data_loader.py`.  Unicode behaviour outside ASCII is not
exercised by the repository's data model, so case mapping is the ASCII one.
-/

abbrev Str := List Char

/-- ASCII whitespace, the characters `str.strip` removes. -/
def isSpaceC (c : Char) : Bool :=
  c.toNat = 32 || (9 ≤ c.toNat && c.toNat ≤ 13)

/-- ASCII decimal digit test (used by the model of `int(...)`). -/
def isDigitC (c : Char) : Bool :=
  48 ≤ c.toNat && c.toNat ≤ 57

/-- Numeric value of a digit character. -/
def digitVal (c : Char) : Nat := c.toNat - 48

/-- `str.split(sep)` for a one-character separator, Python semantics:
`"".split(sep) = [""]`, separators at the ends produce empty fields. -/
def pySplit (sep : Char) : Str → List Str
  | [] => [[]]
  | c :: rest =>
    if c = sep then [] :: pySplit sep rest
    else
      match pySplit sep rest with
      | [] => [[c]]
      | g :: gs => (c :: g) :: gs

/-- Remove leading whitespace. -/
def ldrop (l : Str) : Str := l.dropWhile isSpaceC

/-- Remove trailing whitespace. -/
def rdrop (l : Str) : Str := (l.reverse.dropWhile isSpaceC).reverse

/-- `str.strip()`. -/
def pyStrip (l : Str) : Str := rdrop (ldrop l)

/-- Value of a digit string, most significant digit first. -/
def digitsVal (l : Str) : Nat := l.foldl (fun a c => 10 * a + digitVal c) 0

/-- `int(s)` for a decimal literal: optional surrounding whitespace, optional
sign, then a nonempty run of digits; anything else raises (`none`). -/
def pyToInt (s : Str) : Option Int :=
  match pyStrip s with
  | '-' :: r => if r ≠ [] ∧ r.all isDigitC then some (-(digitsVal r : Int)) else none
  | '+' :: r => if r ≠ [] ∧ r.all isDigitC then some (digitsVal r) else none
  | r => if r ≠ [] ∧ r.all isDigitC then some (digitsVal r) else none

/-- Literal helper: view a string literal as a `Str`. -/
def lit (s : String) : Str := s.toList

/-! ### `clean_season` (`data_loader.py`, lines 23–33)

```python
def clean_season(season_str):
    season_str = str(season_str)
    if season_str in ['2020/21', '2020-21']:
        return 2020
    if '/' in season_str or '-' in season_str:
        year = season_str.split('/')[-1] if '/' in season_str else season_str.split('-')[-1]
        year = year.strip()
        if len(year) == 2:
            year = '20' + year
        return int(year)
    return int(season_str)
```
The input is the string form of the season cell; `int` failure is `none`. -/
def clean_season (s : Str) : Option Int :=
  if s = lit "2020/21" ∨ s = lit "2020-21" then some 2020
  else if s.contains '/' ∨ s.contains '-' then
    let year :=
      if s.contains '/' then (pySplit '/' s).getLastD []
      else (pySplit '-' s).getLastD []
    let year := pyStrip year
    let year := if year.length = 2 then '2' :: '0' :: year else year
    pyToInt year
  else pyToInt s

/-! #### Supporting lemmas for `clean_season` -/

theorem pySplit_ne_nil (sep : Char) (l : Str) : pySplit sep l ≠ [] := by
  cases l with
  | nil => simp [pySplit]
  | cons c rest =>
    simp only [pySplit]
    split
    · simp
    · split <;> simp

theorem pySplit_append (sep : Char) (a b : Str) :
    pySplit sep (a ++ sep :: b) = pySplit sep a ++ pySplit sep b := by
  induction a with
  | nil => simp [pySplit]
  | cons c r ih =>
    by_cases hc : c = sep
    · subst hc
      simp [pySplit, ih]
    · simp only [List.cons_append, pySplit, if_neg hc]
      simp only [List.append_eq]
      rw [ih]
      cases hr : pySplit sep r with
      | nil => exact absurd hr (pySplit_ne_nil sep r)
      | cons g gs => simp

theorem pySplit_of_not_contains {sep : Char} {l : Str} (h : ¬ l.contains sep) :
    pySplit sep l = [l] := by
  induction l with
  | nil => rfl
  | cons c r ih =>
    simp only [List.contains_cons, Bool.or_eq_true, beq_iff_eq, not_or] at h
    have hcs : ¬ c = sep := fun hc => h.1 hc.symm
    simp only [pySplit, if_neg hcs, ih h.2]

theorem getLastD_append_singleton {α : Type} (l : List α) (a d : α) :
    (l ++ [a]).getLastD d = a := by
  induction l with
  | nil => rfl
  | cons x xs ih =>
    cases xs with
    | nil => rfl
    | cons y ys => simpa using ih

/-- Digits contain no separator, sign or whitespace characters. -/
theorem digits_not_contains {l : Str} (hd : l.all isDigitC) {c : Char}
    (hc : ¬ isDigitC c) : ¬ l.contains c := by
  intro hmem
  have hcl : c ∈ l := by rw [← List.elem_iff]; exact hmem
  exact hc (by simpa using List.all_eq_true.1 hd c hcl)

theorem dropWhile_eq_self_of_head {l : Str}
    (h : ∀ c ∈ l.head?, isSpaceC c = false) : l.dropWhile isSpaceC = l := by
  cases l with
  | nil => rfl
  | cons c r => simp [List.dropWhile_cons, h c rfl]

theorem pyStrip_digits {l : Str} (hd : l.all isDigitC) : pyStrip l = l := by
  have hns : ∀ c ∈ l, isSpaceC c = false := by
    intro c hc
    have := List.all_eq_true.1 hd c hc
    simp only [isDigitC, Bool.and_eq_true, decide_eq_true_eq] at this
    simp only [isSpaceC, Bool.or_eq_false_iff, Bool.and_eq_false_iff]
    constructor
    · simp only [decide_eq_false_iff_not]; omega
    · right; simp only [decide_eq_false_iff_not]; omega
  have h1 : ldrop l = l := by
    unfold ldrop
    apply dropWhile_eq_self_of_head
    intro c hc
    exact hns c (List.mem_of_mem_head? hc)
  have h2 : rdrop l = l := by
    unfold rdrop
    have : l.reverse.dropWhile isSpaceC = l.reverse := by
      apply dropWhile_eq_self_of_head
      intro c hc
      exact hns c (by simpa using List.mem_of_mem_head? hc)
    rw [this, List.reverse_reverse]
  unfold pyStrip
  rw [h1, h2]

theorem pyToInt_digits {l : Str} (hd : l.all isDigitC) (hne : l ≠ []) :
    pyToInt l = some (digitsVal l) := by
  have hstrip : pyStrip l = l := pyStrip_digits hd
  cases l with
  | nil => exact absurd rfl hne
  | cons c r =>
    have hc : isDigitC c := by simpa using (List.all_eq_true.1 hd c (by simp))
    have hcm : c ≠ '-' := by
      intro h; subst h; simp [isDigitC] at hc
    have hcp : c ≠ '+' := by
      intro h; subst h; simp [isDigitC] at hc
    unfold pyToInt
    rw [hstrip]
    split
    · rename_i r' heq
      exact absurd (List.head_eq_of_cons_eq heq) hcm
    · rename_i r' heq
      exact absurd (List.head_eq_of_cons_eq heq) hcp
    · simp [hd]

theorem digitsVal_le {l : Str} (hd : l.all isDigitC) :
    digitsVal l < 10 ^ l.length := by
  suffices h : ∀ a : Nat, List.foldl (fun a c => 10 * a + digitVal c) a l <
      (a + 1) * 10 ^ l.length by
    have := h 0
    simpa [digitsVal] using this
  induction l with
  | nil => intro a; simp
  | cons c r ih =>
    intro a
    simp only [List.all_cons, Bool.and_eq_true] at hd
    have hc : digitVal c ≤ 9 := by
      have := hd.1
      simp only [isDigitC, Bool.and_eq_true, decide_eq_true_eq] at this
      unfold digitVal
      omega
    have := ih hd.2 (10 * a + digitVal c)
    simp only [List.foldl_cons, List.length_cons]
    calc List.foldl (fun a c => 10 * a + digitVal c) (10 * a + digitVal c) r
        < (10 * a + digitVal c + 1) * 10 ^ r.length := this
      _ ≤ (a + 1) * 10 ^ (r.length + 1) := by
          rw [pow_succ]
          have : 10 * a + digitVal c + 1 ≤ (a + 1) * 10 := by omega
          calc (10 * a + digitVal c + 1) * 10 ^ r.length
              ≤ ((a + 1) * 10) * 10 ^ r.length :=
                Nat.mul_le_mul_right _ this
            _ = (a + 1) * (10 ^ r.length * 10) := by ring

theorem containsC_iff (l : Str) (c : Char) : l.contains c = true ↔ c ∈ l :=
  List.elem_iff

theorem foldl_digits_shift (l : Str) (a : Nat) :
    List.foldl (fun a c => 10 * a + digitVal c) a l =
      a * 10 ^ l.length + digitsVal l := by
  induction l generalizing a with
  | nil => simp [digitsVal]
  | cons c r ih =>
    have hval : digitsVal (c :: r) = digitVal c * 10 ^ r.length + digitsVal r := by
      have h0 : digitsVal (c :: r) =
          List.foldl (fun a c => 10 * a + digitVal c) (10 * 0 + digitVal c) r := rfl
      rw [h0, ih]
      ring
    simp only [List.foldl_cons, List.length_cons]
    rw [ih (10 * a + digitVal c), hval]
    ring

theorem digitsVal_lower {c : Char} {r : Str} (hc : isDigitC c) (h0 : c ≠ '0') :
    10 ^ r.length ≤ digitsVal (c :: r) := by
  have hc9 : 1 ≤ digitVal c := by
    simp only [isDigitC, Bool.and_eq_true, decide_eq_true_eq] at hc
    have : c.toNat ≠ 48 := by
      intro h
      exact h0 (Char.eq_of_val_eq (UInt32.ext (by simpa [Char.toNat] using h)))
    unfold digitVal
    omega
  suffices h : ∀ (l : Str) (a : Nat), a * 10 ^ l.length ≤
      List.foldl (fun a c => 10 * a + digitVal c) a l by
    have := h r (digitVal c)
    unfold digitsVal
    simp only [List.foldl_cons]
    calc 10 ^ r.length = 1 * 10 ^ r.length := (one_mul _).symm
      _ ≤ digitVal c * 10 ^ r.length := Nat.mul_le_mul_right _ hc9
      _ ≤ _ := by simpa using this
  intro l
  induction l with
  | nil => intro a; simp
  | cons d t ih =>
    intro a
    simp only [List.foldl_cons, List.length_cons]
    calc a * 10 ^ (t.length + 1) = (a * 10) * 10 ^ t.length := by ring
      _ ≤ (10 * a + digitVal d) * 10 ^ t.length := by
          apply Nat.mul_le_mul_right
          omega
      _ ≤ _ := ih (10 * a + digitVal d)

/-- A digit string is never one of the two special dual-label strings. -/
theorem digits_ne_special {s : Str} (hd : s.all isDigitC) :
    s ≠ lit "2020/21" ∧ s ≠ lit "2020-21" := by
  constructor <;>
  · intro heq
    rw [heq] at hd
    exact absurd hd (by decide)

/-- C2 (claim): for every valid season label form — plain four-digit year,
slash- or dash-split range with a four-digit or two-digit trailing year,
and the special dual labels `"2020/21"`/`"2020-21"` — `clean_season` returns
a single four-digit integer: the trailing year of a split range, `20`-prefix
expansion for a two-digit trailing year, and the fixed year `2020` for the
dual-label season. -/
theorem clean_season_valid_forms :
    (clean_season (lit "2020/21") = some 2020 ∧
      clean_season (lit "2020-21") = some 2020)
    ∧ (∀ s : Str, s.all isDigitC = true → s.length = 4 → s.headD '0' ≠ '0' →
        clean_season s = some (digitsVal s) ∧
          1000 ≤ (digitsVal s : Int) ∧ (digitsVal s : Int) < 10000)
    ∧ (∀ (sep : Char) (a b : Str), sep = '/' ∨ sep = '-' →
        a.contains '/' = false → b.all isDigitC = true →
        a ++ sep :: b ≠ lit "2020/21" → a ++ sep :: b ≠ lit "2020-21" →
        (b.length = 4 → b.headD '0' ≠ '0' →
          clean_season (a ++ sep :: b) = some (digitsVal b) ∧
            1000 ≤ (digitsVal b : Int) ∧ (digitsVal b : Int) < 10000)
        ∧ (b.length = 2 →
          clean_season (a ++ sep :: b) = some (2000 + (digitsVal b : Int)) ∧
            2000 ≤ 2000 + (digitsVal b : Int) ∧
            2000 + (digitsVal b : Int) < 10000)) := by
  refine ⟨⟨by decide, by decide⟩, ?_, ?_⟩
  · -- plain four-digit year
    intro s hd hlen h0
    have hne : s ≠ [] := by intro h; rw [h] at hlen; simp at hlen
    have hsp := digits_ne_special hd
    have hnc1 : s.contains '/' = false := by
      have := digits_not_contains hd (c := '/') (by decide)
      exact Bool.not_eq_true _ ▸ eq_false_of_ne_true this
    have hnc2 : s.contains '-' = false := by
      have := digits_not_contains hd (c := '-') (by decide)
      exact Bool.not_eq_true _ ▸ eq_false_of_ne_true this
    have hcs : clean_season s = pyToInt s := by
      unfold clean_season
      rw [if_neg (by rw [not_or]; exact hsp), if_neg (by rw [hnc1, hnc2]; simp)]
    refine ⟨by rw [hcs, pyToInt_digits hd hne], ?_, ?_⟩
    · obtain ⟨c, r, rfl⟩ : ∃ c r, s = c :: r := by
        cases s with
        | nil => exact absurd rfl hne
        | cons c r => exact ⟨c, r, rfl⟩
      have hc : isDigitC c := by simpa using (List.all_eq_true.1 hd c (by simp))
      have hc0 : c ≠ '0' := by simpa using h0
      have := digitsVal_lower (r := r) hc hc0
      have hr : r.length = 3 := by simpa using hlen
      rw [hr] at this
      exact_mod_cast by omega
    · have := digitsVal_le hd
      rw [hlen] at this
      exact_mod_cast by omega
  · -- split ranges
    intro sep a b hsep ha hb hs1 hs2
    have hbnsep : ∀ c : Char, isDigitC c = false → b.contains c = false := by
      intro c hc
      have := digits_not_contains hb (c := c) (by simp [hc])
      exact Bool.not_eq_true _ ▸ eq_false_of_ne_true this
    -- which separator the code splits on, and the resulting last field
    have hyear :
        (if (a ++ sep :: b).contains '/' = true then
          (pySplit '/' (a ++ sep :: b)).getLastD []
        else (pySplit '-' (a ++ sep :: b)).getLastD []) = b := by
      rcases hsep with rfl | rfl
      · have hc : (a ++ '/' :: b).contains '/' = true := by
          rw [containsC_iff]; simp
        rw [if_pos hc, pySplit_append,
          pySplit_of_not_contains (l := b)
            (by rw [hbnsep '/' (by decide)]; simp),
          getLastD_append_singleton]
      · have hc : (a ++ '-' :: b).contains '/' = false := by
          rw [← Bool.not_eq_true, containsC_iff]
          intro hmem
          rcases List.mem_append.1 hmem with h | h
          · rw [← containsC_iff] at h
            rw [ha] at h
            exact absurd h (by simp)
          · rcases List.mem_cons.1 h with h | h
            · exact absurd h (by decide)
            · rw [← containsC_iff] at h
              rw [hbnsep '/' (by decide)] at h
              exact absurd h (by simp)
        rw [hc]
        simp only [Bool.false_eq_true, if_false]
        rw [pySplit_append,
          pySplit_of_not_contains (l := b)
            (by rw [hbnsep '-' (by decide)]; simp),
          getLastD_append_singleton]
    have hcontains : ((a ++ sep :: b).contains '/' ∨
        (a ++ sep :: b).contains '-') = True := by
      simp only [eq_iff_iff, iff_true]
      rcases hsep with rfl | rfl
      · left; rw [containsC_iff]; simp
      · right; rw [containsC_iff]; simp
    have hcs : clean_season (a ++ sep :: b) =
        (let year :=
          if (a ++ sep :: b).contains '/' = true then
            (pySplit '/' (a ++ sep :: b)).getLastD []
          else (pySplit '-' (a ++ sep :: b)).getLastD []
        let year := pyStrip year
        let year := if year.length = 2 then '2' :: '0' :: year else year
        pyToInt year) := by
      unfold clean_season
      rw [if_neg (by rw [not_or]; exact ⟨hs1, hs2⟩)]
      rw [if_pos (by rw [hcontains]; trivial)]
    rw [hcs]
    simp only [hyear, pyStrip_digits hb]
    constructor
    · -- four-digit trailing year
      intro hlen h0
      rw [if_neg (by omega)]
      refine ⟨by rw [pyToInt_digits hb (by intro h; rw [h] at hlen; simp at hlen)],
        ?_, ?_⟩
      · obtain ⟨c, r, rfl⟩ : ∃ c r, b = c :: r := by
          cases b with
          | nil => simp at hlen
          | cons c r => exact ⟨c, r, rfl⟩
        have hc : isDigitC c := by simpa using (List.all_eq_true.1 hb c (by simp))
        have hc0 : c ≠ '0' := by simpa using h0
        have := digitsVal_lower (r := r) hc hc0
        have hr : r.length = 3 := by simpa using hlen
        rw [hr] at this
        exact_mod_cast by omega
      · have := digitsVal_le hb
        rw [hlen] at this
        exact_mod_cast by omega
    · -- two-digit trailing year: '20' prefix
      intro hlen
      rw [if_pos hlen]
      have hall : ('2' :: '0' :: b).all isDigitC = true := by
        simp only [List.all_cons, Bool.and_eq_true]
        exact ⟨by decide, by decide, hb⟩
      have hval : digitsVal ('2' :: '0' :: b) = 2000 + digitsVal b := by
        unfold digitsVal
        simp only [List.foldl_cons]
        have : (10 * (10 * 0 + digitVal '2') + digitVal '0') = 20 := by decide
        rw [this, foldl_digits_shift b 20, hlen]
        norm_num [digitsVal]
      have hub := digitsVal_le hb
      rw [hlen] at hub
      refine ⟨?_, by omega, ?_⟩
      · rw [pyToInt_digits hall (by simp), hval]
        rfl
      · have : (digitsVal b : Int) < 100 := by exact_mod_cast hub
        omega

/-- Witness for C2: concrete season labels of each valid form. -/
theorem clean_season_valid_forms_witness :
    clean_season (lit "2023") = some 2023 ∧
      clean_season (lit "2007/08") = some 2008 ∧
      clean_season (lit "2009-10") = some 2010 ∧
      clean_season (lit "2020/21") = some 2020 := by
  obtain ⟨hdual, hplain, hsplit⟩ := clean_season_valid_forms
  refine ⟨?_, ?_, ?_, hdual.1⟩
  · have h := (hplain (lit "2023") (by decide) (by decide) (by decide)).1
    rw [h]
    decide
  · have h := ((hsplit '/' (lit "2007") (lit "08") (Or.inl rfl) (by decide)
      (by decide) (by decide) (by decide)).2 (by decide)).1
    have e : lit "2007" ++ '/' :: lit "08" = lit "2007/08" := by decide
    rw [e] at h
    rw [h]
    decide
  · have h := ((hsplit '-' (lit "2009") (lit "10") (Or.inr rfl) (by decide)
      (by decide) (by decide) (by decide)).2 (by decide)).1
    have e : lit "2009" ++ '-' :: lit "10" = lit "2009-10" := by decide
    rw [e] at h
    rw [h]
    decide

/-! ### Team-name canonicalization (`data_loader.py`, lines 63–107)

For each team-bearing column `clean_data` runs, per cell:
```python
matches[col] = matches[col].apply(normalize_team_name)        # strip + lower
matches[col] = matches[col].map(team_mapping).fillna(matches[col])
matches[col] = matches[col].apply(normalize_team_name)
matches[col] = matches[col].map(team_mapping).fillna(matches[col])
matches[col] = matches[col].str.title()
```
`normalize_team_name` passes non-strings through; column cells here are
strings, so only the string branch is modelled.  `str.lower`/`str.title`
use the ASCII case mapping (the repository's team names are ASCII). -/

/-- ASCII lower-casing of one character (`str.lower`). -/
def lowerC (c : Char) : Char :=
  if 65 ≤ c.toNat ∧ c.toNat ≤ 90 then Char.ofNat (c.toNat + 32) else c

/-- ASCII upper-casing of one character (used by `str.title`). -/
def upperC (c : Char) : Char :=
  if 97 ≤ c.toNat ∧ c.toNat ≤ 122 then Char.ofNat (c.toNat - 32) else c

/-- ASCII letter test (`str.title` word boundaries). -/
def isAlphaC (c : Char) : Bool :=
  (65 ≤ c.toNat && c.toNat ≤ 90) || (97 ≤ c.toNat && c.toNat ≤ 122)

/-- `str.lower()`. -/
def pyLower (l : Str) : Str := l.map lowerC

/-- `str.title()` worker; `prev` records whether the previous character was
a letter (continuing a word). -/
def pyTitleGo : Bool → Str → Str
  | _, [] => []
  | prev, c :: r =>
    (if isAlphaC c then (if prev then lowerC c else upperC c) else c)
      :: pyTitleGo (isAlphaC c) r

/-- `str.title()`: first letter of each word upper-cased, the rest lowered. -/
def pyTitle (l : Str) : Str := pyTitleGo false l

/-- The static alias table `team_mapping`, in source order. -/
def team_mapping : List (Str × Str) :=
  [ (lit "delhi daredevils", lit "Delhi Capitals"),
    (lit "deccan chargers", lit "Sunrisers Hyderabad"),
    (lit "kings xi punjab", lit "Punjab Kings"),
    (lit "royal challengers bengaluru", lit "Royal Challengers Bangalore"),
    (lit "royal challengers bangalore", lit "Royal Challengers Bangalore"),
    (lit "rising pune supergiant", lit "Rising Pune Supergiants"),
    (lit "rising pune supergaints", lit "Rising Pune Supergiants"),
    (lit "rising pune supergiants", lit "Rising Pune Supergiants"),
    (lit "gujarat lions", lit "Gujarat Titans"),
    (lit "pune warriors", lit "Rising Pune Supergiants"),
    (lit "delhi capitals ", lit "Delhi Capitals"),
    (lit "sunrisers hyderabad ", lit "Sunrisers Hyderabad"),
    (lit "punjab kings ", lit "Punjab Kings"),
    (lit "royal challengers bangalore ", lit "Royal Challengers Bangalore"),
    (lit "rising pune supergiants ", lit "Rising Pune Supergiants"),
    (lit "kolkata knight riders ", lit "Kolkata Knight Riders"),
    (lit "mumbai indians ", lit "Mumbai Indians"),
    (lit "chennai super kings ", lit "Chennai Super Kings"),
    (lit "rajasthan royals ", lit "Rajasthan Royals"),
    (lit "gujarat titans ", lit "Gujarat Titans"),
    (lit "lucknow super giants ", lit "Lucknow Super Giants"),
    (lit "delhi capitals", lit "Delhi Capitals"),
    (lit "sunrisers hyderabad", lit "Sunrisers Hyderabad"),
    (lit "punjab kings", lit "Punjab Kings"),
    (lit "kolkata knight riders", lit "Kolkata Knight Riders"),
    (lit "mumbai indians", lit "Mumbai Indians"),
    (lit "chennai super kings", lit "Chennai Super Kings"),
    (lit "rajasthan royals", lit "Rajasthan Royals"),
    (lit "gujarat titans", lit "Gujarat Titans"),
    (lit "lucknow super giants", lit "Lucknow Super Giants") ]

/-- `name.strip().lower()` (`normalize_team_name`, string branch). -/
def normalize_team_name (n : Str) : Str := pyLower (pyStrip n)

/-- `.map(team_mapping).fillna(original)`: alias lookup, keeping the input
when it is not a key. -/
def mapFill (n : Str) : Str := (team_mapping.lookup n).getD n

/-- The full per-cell canonicalization pipeline of `clean_data`:
normalize, alias-map, normalize, alias-map, title-case. -/
def canonicalizeTeam (n : Str) : Str :=
  let a := normalize_team_name n
  let b := mapFill a
  let c := normalize_team_name b
  let d := mapFill c
  pyTitle d

/-! #### Character-level case lemmas -/

theorem char_toNat_ofNat {n : Nat} (h : n < 55296) : (Char.ofNat n).toNat = n := by
  unfold Char.ofNat
  rw [dif_pos (Or.inl h)]
  simp [Char.ofNatAux, Char.toNat, UInt32.toNat, BitVec.toNat_ofNatLt]

theorem char_ofNat_toNat (c : Char) (h : c.toNat < 55296) :
    Char.ofNat c.toNat = c :=
  Char.eq_of_val_eq (UInt32.ext (char_toNat_ofNat h))

theorem toNat_lowerC (c : Char) :
    (lowerC c).toNat =
      if 65 ≤ c.toNat ∧ c.toNat ≤ 90 then c.toNat + 32 else c.toNat := by
  unfold lowerC
  split
  · rename_i h
    exact char_toNat_ofNat (by omega)
  · rfl

theorem toNat_upperC (c : Char) :
    (upperC c).toNat =
      if 97 ≤ c.toNat ∧ c.toNat ≤ 122 then c.toNat - 32 else c.toNat := by
  unfold upperC
  split
  · rename_i h
    exact char_toNat_ofNat (by omega)
  · rfl

theorem lowerC_lowerC (c : Char) : lowerC (lowerC c) = lowerC c := by
  by_cases h : 65 ≤ c.toNat ∧ c.toNat ≤ 90
  · have ht : (lowerC c).toNat = c.toNat + 32 := by rw [toNat_lowerC, if_pos h]
    show (if 65 ≤ (lowerC c).toNat ∧ (lowerC c).toNat ≤ 90 then _ else _) = _
    rw [if_neg (by omega)]
  · show (if 65 ≤ (lowerC c).toNat ∧ (lowerC c).toNat ≤ 90 then _ else _) = _
    have ht : (lowerC c).toNat = c.toNat := by rw [toNat_lowerC, if_neg h]
    rw [if_neg (by omega)]

theorem lowerC_upperC (c : Char) : lowerC (upperC c) = lowerC c := by
  by_cases h : 97 ≤ c.toNat ∧ c.toNat ≤ 122
  · have hcv : c.toNat < 55296 := by omega
    have ht : (upperC c).toNat = c.toNat - 32 := by rw [toNat_upperC, if_pos h]
    show (if 65 ≤ (upperC c).toNat ∧ (upperC c).toNat ≤ 90 then
      Char.ofNat ((upperC c).toNat + 32) else upperC c) = _
    rw [if_pos (by omega), ht]
    have : c.toNat - 32 + 32 = c.toNat := by omega
    rw [this, char_ofNat_toNat c hcv]
    show _ = (if 65 ≤ c.toNat ∧ c.toNat ≤ 90 then _ else c)
    rw [if_neg (by omega)]
  · have ht : (upperC c).toNat = c.toNat := by rw [toNat_upperC, if_neg h]
    have : upperC c = c := by
      unfold upperC
      rw [if_neg h]
    rw [this]

theorem isSpaceC_lowerC (c : Char) : isSpaceC (lowerC c) = isSpaceC c := by
  unfold isSpaceC
  rw [toNat_lowerC]
  split
  · rename_i h
    rw [decide_eq_false (by omega : ¬ (c.toNat + 32 = 32)),
      decide_eq_false (by omega : ¬ (c.toNat + 32 ≤ 13)),
      decide_eq_false (by omega : ¬ (c.toNat = 32)),
      decide_eq_false (by omega : ¬ (c.toNat ≤ 13))]
    simp
  · rfl

/-! #### List-level lemmas: `lower`, `title` and `strip` interaction -/

theorem pyLower_idem (l : Str) : pyLower (pyLower l) = pyLower l := by
  unfold pyLower
  rw [List.map_map]
  exact List.map_congr_left (fun c _ => lowerC_lowerC c)

theorem pyLower_pyTitleGo (prev : Bool) (l : Str) :
    pyLower (pyTitleGo prev l) = pyLower l := by
  induction l generalizing prev with
  | nil => rfl
  | cons c r ih =>
    unfold pyTitleGo pyLower
    simp only [List.map_cons]
    rw [show (List.map lowerC (pyTitleGo (isAlphaC c) r)) =
      pyLower (pyTitleGo (isAlphaC c) r) from rfl, ih (isAlphaC c)]
    congr 1
    by_cases ha : isAlphaC c
    · rw [if_pos ha]
      by_cases hp : prev
      · rw [if_pos hp, lowerC_lowerC]
      · rw [if_neg hp, lowerC_upperC]
    · rw [if_neg ha]

theorem pyLower_pyTitle (l : Str) : pyLower (pyTitle l) = pyLower l :=
  pyLower_pyTitleGo false l

theorem spaceC_comp_lowerC : (isSpaceC ∘ lowerC) = isSpaceC :=
  funext fun c => isSpaceC_lowerC c

theorem ldrop_pyLower (l : Str) : ldrop (pyLower l) = pyLower (ldrop l) := by
  unfold ldrop pyLower
  rw [List.dropWhile_map, spaceC_comp_lowerC]

theorem rdrop_pyLower (l : Str) : rdrop (pyLower l) = pyLower (rdrop l) := by
  unfold rdrop pyLower
  rw [← List.map_reverse, List.dropWhile_map, spaceC_comp_lowerC,
    ← List.map_reverse]

theorem pyStrip_pyLower (l : Str) : pyStrip (pyLower l) = pyLower (pyStrip l) := by
  unfold pyStrip
  rw [ldrop_pyLower, rdrop_pyLower]

theorem head?_dropWhile (p : Char → Bool) (l : Str) :
    ∀ c ∈ (l.dropWhile p).head?, p c = false := by
  induction l with
  | nil => intro c hc; simp at hc
  | cons x r ih =>
    intro c hc
    rw [List.dropWhile_cons] at hc
    by_cases hx : p x
    · rw [if_pos hx] at hc
      exact ih c hc
    · rw [if_neg hx] at hc
      simp only [List.head?_cons, Option.mem_def, Option.some.injEq] at hc
      rw [← hc]
      exact eq_false_of_ne_true hx

theorem ldrop_idem (l : Str) : ldrop (ldrop l) = ldrop l :=
  dropWhile_eq_self_of_head (head?_dropWhile isSpaceC l)

theorem rdrop_idem (l : Str) : rdrop (rdrop l) = rdrop l := by
  unfold rdrop
  rw [List.reverse_reverse]
  rw [dropWhile_eq_self_of_head (head?_dropWhile isSpaceC l.reverse)]

theorem rdrop_prefix (l : Str) : rdrop l <+: l := by
  have h : (List.dropWhile isSpaceC l.reverse).reverse <+: l.reverse.reverse :=
    List.reverse_prefix.mpr (List.dropWhile_suffix isSpaceC)
  rw [List.reverse_reverse] at h
  exact h

theorem ldrop_rdrop_ldrop (l : Str) : ldrop (rdrop (ldrop l)) = rdrop (ldrop l) := by
  apply dropWhile_eq_self_of_head
  intro c hc
  obtain ⟨t, ht⟩ := rdrop_prefix (ldrop l)
  have hne : rdrop (ldrop l) ≠ [] := by
    intro h
    rw [h] at hc
    simp at hc
  have hhd : (rdrop (ldrop l)).head? = (ldrop l).head? := by
    cases hr : rdrop (ldrop l) with
    | nil => exact absurd hr hne
    | cons x xs =>
      rw [hr] at ht
      rw [← ht]
      simp
  rw [hhd] at hc
  exact head?_dropWhile isSpaceC l c hc

theorem pyStrip_idem (l : Str) : pyStrip (pyStrip l) = pyStrip l := by
  unfold pyStrip
  rw [ldrop_rdrop_ldrop, rdrop_idem]

theorem normalize_idem (n : Str) :
    normalize_team_name (normalize_team_name n) = normalize_team_name n := by
  unfold normalize_team_name
  rw [pyStrip_pyLower, pyLower_idem, pyStrip_idem]

theorem normalize_pyTitle (w : Str) :
    normalize_team_name (pyTitle w) = normalize_team_name w := by
  unfold normalize_team_name
  rw [← pyStrip_pyLower, pyLower_pyTitle, pyStrip_pyLower]

theorem mem_of_lookup_eq_some {α β : Type} [BEq α] [LawfulBEq α]
    {l : List (α × β)} {k : α} {v : β}
    (h : l.lookup k = some v) : (k, v) ∈ l := by
  induction l with
  | nil => simp [List.lookup] at h
  | cons p r ih =>
    rw [List.lookup] at h
    rcases hk : k == p.1 with _ | _
    · simp only [hk] at h
      exact List.mem_cons_of_mem p (ih h)
    · simp only [hk] at h
      have hv : p.2 = v := by simpa using h
      have hkp : k = p.1 := beq_iff_eq.1 hk
      have hp : (k, v) = p := by
        obtain ⟨a, b⟩ := p
        simp only at hv hkp
        rw [hkp, ← hv]
      rw [hp]
      exact List.mem_cons_self p r

/-- Every alias-table value is a fixed point of the remaining pipeline:
title-casing leaves it unchanged and re-normalizing then re-mapping it
yields the value itself. -/
theorem team_mapping_values_fixed :
    ∀ p ∈ team_mapping,
      pyTitle p.2 = p.2 ∧ mapFill (normalize_team_name p.2) = p.2 := by
  decide

/-- C3: the team-name canonicalization applied per column by `clean_data`
(strip/lower, alias lookup, strip/lower, alias lookup, title-case) is
idempotent on every string, whether or not it hits the alias table. -/
theorem canonicalizeTeam_idempotent (n : Str) :
    canonicalizeTeam (canonicalizeTeam n) = canonicalizeTeam n := by
  have key : ∀ m : Str, canonicalizeTeam m =
      pyTitle (mapFill (normalize_team_name (mapFill (normalize_team_name m)))) :=
    fun m => rfl
  cases hl : team_mapping.lookup (normalize_team_name n) with
  | none =>
    have hb : mapFill (normalize_team_name n) = normalize_team_name n := by
      unfold mapFill
      rw [hl]
      rfl
    have hout : canonicalizeTeam n = pyTitle (normalize_team_name n) := by
      rw [key n, hb, normalize_idem n, hb]
    rw [hout, key (pyTitle (normalize_team_name n)), normalize_pyTitle,
      normalize_idem n, hb, normalize_idem n, hb]
  | some v =>
    have hv : pyTitle v = v ∧ mapFill (normalize_team_name v) = v := by
      have h := team_mapping_values_fixed _ (mem_of_lookup_eq_some hl)
      exact h
    have hb : mapFill (normalize_team_name n) = v := by
      unfold mapFill
      rw [hl]
      rfl
    have hout : canonicalizeTeam n = v := by
      rw [key n, hb, hv.2, hv.1]
    have hfix : canonicalizeTeam v = v := by
      rw [key v, hv.2, hv.2, hv.1]
    rw [hout, hfix]

/-! ### Delivery cleaning and the season merge (`data_loader.py`, lines 44–60)

```python
deliveries['dismissal_kind'] = deliveries['dismissal_kind'].fillna('None')
deliveries['player_dismissed'] = deliveries['player_dismissed'].fillna('None')
deliveries['fielder'] = deliveries['fielder'].fillna('None')
deliveries['extras_type'] = deliveries['extras_type'].fillna('None')
deliveries['batting_team'] = deliveries['batting_team'].fillna('Unknown')
deliveries['bowling_team'] = deliveries['bowling_team'].fillna('Unknown')
deliveries['fielder'] = deliveries['fielder'].replace('None', pd.NA)
deliveries = deliveries.merge(matches[['id', 'season']], left_on='match_id',
                              right_on='id', how='left')
unmatched = deliveries['season'].isna().sum()
if unmatched > 0:
    ...warning...
    deliveries = deliveries.dropna(subset=['season'])
deliveries['season'] = deliveries['season'].astype(int)
```
Missing cells are `none`; `fillna`/`replace` are the per-cell operations
below.  Team names in KPI-land are plain `String`s (no character surgery
is needed there). -/

/-- `fillna(v)` on one cell. -/
def optFillna (o : Option String) (v : String) : Option String := some (o.getD v)

/-- `replace(a, b)` on one cell (`b` may be `pd.NA`, i.e. `none`). -/
def optReplace (o : Option String) (a : String) (b : Option String) :
    Option String := if o = some a then b else o

/-- A raw delivery row as loaded from `deliveries.csv` (nullable columns
are `Option`-typed). -/
structure DeliveryRaw where
  match_id : Int
  batter : String
  bowler : String
  batsman_runs : Int
  total_runs : Int
  dismissal_kind : Option String
  player_dismissed : Option String
  fielder : Option String
  extras_type : Option String
  batting_team : Option String
  bowling_team : Option String
deriving DecidableEq, Repr

/-- A delivery row after the per-column fill/replace steps (before the
season merge).  `fielder` stays nullable: line 52 maps `'None'` back to
`pd.NA`. -/
structure DeliveryFilled where
  match_id : Int
  batter : String
  bowler : String
  batsman_runs : Int
  total_runs : Int
  dismissal_kind : String
  player_dismissed : String
  fielder : Option String
  extras_type : String
  batting_team : String
  bowling_team : String
deriving DecidableEq, Repr

/-- Lines 46–52 of `clean_data`, applied to one delivery row.  The non-null
result of `fillna` is extracted with `getD ""` (always `some` by
construction). -/
def cleanDeliveryRow (d : DeliveryRaw) : DeliveryFilled :=
  { match_id := d.match_id
    batter := d.batter
    bowler := d.bowler
    batsman_runs := d.batsman_runs
    total_runs := d.total_runs
    dismissal_kind := (optFillna d.dismissal_kind "None").getD ""
    player_dismissed := (optFillna d.player_dismissed "None").getD ""
    fielder := optReplace (optFillna d.fielder "None") "None" none
    extras_type := (optFillna d.extras_type "None").getD ""
    batting_team := (optFillna d.batting_team "Unknown").getD ""
    bowling_team := (optFillna d.bowling_team "Unknown").getD "" }

/-- A match row (post `clean_season`) as the KPI layer and the merge see it. -/
structure MatchRow where
  id : Int
  season : Int
  city : String
  team1 : String
  team2 : String
  toss_winner : String
  winner : String
  player_of_match : String
  venue : String
deriving DecidableEq, Repr

/-- The left merge of one delivery against `matches[['id','season']]`:
every match row whose `id` equals the delivery's `match_id` produces an
output row; a delivery with no matching row is kept once with a null
season. -/
def leftJoinSeason (ms : List MatchRow) (d : DeliveryFilled) :
    List (DeliveryFilled × Option Int) :=
  let hits := ms.filter (fun m => m.id = d.match_id)
  if hits.isEmpty then [(d, none)] else hits.map (fun m => (d, some m.season))

/-- The merged delivery table (line 54). -/
def mergedDeliveries (ds : List DeliveryFilled) (ms : List MatchRow) :
    List (DeliveryFilled × Option Int) :=
  ds.flatMap (leftJoinSeason ms)

/-- `deliveries['season'].isna().sum()` (line 55), the number reported in
the warning. -/
def unmatchedCount (ds : List DeliveryFilled) (ms : List MatchRow) : Nat :=
  (mergedDeliveries ds ms).countP (fun p => p.2.isNone)

/-- `dropna(subset=['season'])` followed by `astype(int)` (lines 58–59):
the final normalized delivery table, season now non-null. -/
def deliveriesWithSeason (ds : List DeliveryFilled) (ms : List MatchRow) :
    List (DeliveryFilled × Int) :=
  (mergedDeliveries ds ms).filterMap (fun p => p.2.map fun s => (p.1, s))

/-! #### C7: missing-value defaults on the delivery table -/

/-- C7 (amended): after the per-column cleaning of `clean_data`,
`dismissal_kind`/`player_dismissed`/`extras_type` default missing values to
`"None"` and `batting_team`/`bowling_team` default to `"Unknown"`; but the
`fielder` column's `fillna('None')` is undone by the subsequent
`replace('None', pd.NA)`: `fielder` is null exactly when the input was
missing or literally `"None"`, and keeps its value otherwise. -/
theorem cleanDeliveryRow_defaults (d : DeliveryRaw) :
    (cleanDeliveryRow d).dismissal_kind = d.dismissal_kind.getD "None"
    ∧ (cleanDeliveryRow d).player_dismissed = d.player_dismissed.getD "None"
    ∧ (cleanDeliveryRow d).extras_type = d.extras_type.getD "None"
    ∧ (cleanDeliveryRow d).batting_team = d.batting_team.getD "Unknown"
    ∧ (cleanDeliveryRow d).bowling_team = d.bowling_team.getD "Unknown"
    ∧ ((cleanDeliveryRow d).fielder = none ↔
        (d.fielder = none ∨ d.fielder = some "None"))
    ∧ (cleanDeliveryRow d).fielder =
        (if d.fielder = some "None" ∨ d.fielder = none then none else d.fielder) := by
  refine ⟨rfl, rfl, rfl, rfl, rfl, ?_, ?_⟩
  · show (optReplace (optFillna d.fielder "None") "None" none) = none ↔ _
    unfold optReplace optFillna
    cases hf : d.fielder with
    | none => simp
    | some s =>
      by_cases hs : s = "None" <;> simp [hs]
  · show (optReplace (optFillna d.fielder "None") "None" none) = _
    unfold optReplace optFillna
    cases hf : d.fielder with
    | none => simp
    | some s =>
      by_cases hs : s = "None" <;> simp [hs]

/-- C7 (claim refuted): on a delivery whose raw `fielder` cell is missing,
the cleaned row's `fielder` is null, not the string `"None"`. -/
theorem cleanDeliveryRow_fielder_counterexample :
    (cleanDeliveryRow
      ⟨1, "A", "B", 0, 0, none, none, none, none, none, none⟩).fielder ≠
      some "None" := by
  decide

/-! #### C4: the season merge drops unmatched deliveries -/

/-- C4: with distinct match ids, every row of the normalized delivery table
has a (non-null, by type) season equal to the season of the match row whose
id is its `match_id`; the unmatched count reported in the warning is exactly
the number of deliveries with no matching match row; and no unmatched
delivery survives into the normalized table. -/
theorem deliveriesWithSeason_spec (ds : List DeliveryFilled) (ms : List MatchRow)
    (hids : (ms.map (fun m => m.id)).Nodup) :
    (∀ p ∈ deliveriesWithSeason ds ms,
      (∃ m ∈ ms, m.id = p.1.match_id) ∧
      (∀ m ∈ ms, m.id = p.1.match_id → p.2 = m.season))
    ∧ unmatchedCount ds ms =
        (ds.filter (fun d => ¬ ms.any (fun m => m.id = d.match_id))).length
    ∧ (∀ d ∈ ds, (¬ ∃ m ∈ ms, m.id = d.match_id) →
        ∀ p ∈ deliveriesWithSeason ds ms, p.1 ≠ d) := by
  have hrow : ∀ d, ∀ p ∈ leftJoinSeason ms d,
      p.1 = d ∧ ∀ s, p.2 = some s → ∃ m ∈ ms, m.id = d.match_id ∧ m.season = s := by
    intro d p hp
    unfold leftJoinSeason at hp
    by_cases he : (ms.filter (fun m => m.id = d.match_id)).isEmpty
    · rw [if_pos he] at hp
      simp only [List.mem_singleton] at hp
      subst hp
      exact ⟨rfl, by intro s hs; simp at hs⟩
    · rw [if_neg he] at hp
      obtain ⟨m, hm, rfl⟩ := List.mem_map.1 hp
      refine ⟨rfl, ?_⟩
      intro s hs
      obtain ⟨hmem, hid⟩ := List.mem_filter.1 hm
      exact ⟨m, hmem, by simpa using hid, by simpa using hs⟩
  refine ⟨?_, ?_, ?_⟩
  · intro p hp
    obtain ⟨q, hq, hps⟩ := List.mem_filterMap.1 hp
    obtain ⟨s, hs, hqs⟩ := Option.map_eq_some'.1 hps
    obtain ⟨d, hd, hqmem⟩ := List.mem_flatMap.1 hq
    obtain ⟨hq1, hq2⟩ := hrow d q hqmem
    obtain ⟨m, hm, hmid, hmse⟩ := hq2 s hs
    have hp1 : p.1 = d := by rw [← hqs]; exact hq1
    have hp2 : p.2 = s := by rw [← hqs]
    constructor
    · exact ⟨m, hm, by rw [hp1]; exact hmid⟩
    · intro m' hm' hid'
      have : m' = m := by
        apply List.inj_on_of_nodup_map hids hm' hm
        rw [hid', hp1, hmid]
      rw [hp2, this, hmse]
  · unfold unmatchedCount mergedDeliveries
    induction ds with
    | nil => rfl
    | cons d rest ih =>
      rw [List.flatMap_cons, List.countP_append, ih, List.filter_cons]
      by_cases hmt : ms.any (fun m => m.id = d.match_id)
      · have hne : ¬ (ms.filter (fun m => m.id = d.match_id)).isEmpty := by
          rw [List.isEmpty_iff]
          intro hnil
          obtain ⟨m, hm, hid⟩ := List.any_eq_true.1 hmt
          have : m ∈ ms.filter (fun m => m.id = d.match_id) :=
            List.mem_filter.2 ⟨hm, hid⟩
          rw [hnil] at this
          simp at this
        have h0 : (leftJoinSeason ms d).countP (fun p => p.2.isNone) = 0 := by
          unfold leftJoinSeason
          rw [if_neg hne]
          rw [List.countP_eq_zero]
          intro p hp
          obtain ⟨m, hm, rfl⟩ := List.mem_map.1 hp
          simp
        rw [h0]
        simp [hmt]
      · have he : (ms.filter (fun m => m.id = d.match_id)).isEmpty := by
          rw [List.isEmpty_iff, List.filter_eq_nil_iff]
          intro m hm
          intro hid
          exact hmt (List.any_eq_true.2 ⟨m, hm, hid⟩)
        have h1 : (leftJoinSeason ms d).countP (fun p => p.2.isNone) = 1 := by
          unfold leftJoinSeason
          rw [if_pos he]
          rfl
        rw [h1]
        simp only [eq_false_of_ne_true hmt]
        simp [Nat.add_comm]
  · intro d _ hnomatch p hp hpd
    obtain ⟨q, hq, hps⟩ := List.mem_filterMap.1 hp
    obtain ⟨s, hs, hqs⟩ := Option.map_eq_some'.1 hps
    obtain ⟨d', hd', hqmem⟩ := List.mem_flatMap.1 hq
    obtain ⟨hq1, hq2⟩ := hrow d' q hqmem
    obtain ⟨m, hm, hmid, _⟩ := hq2 s hs
    apply hnomatch
    have hp1 : p.1 = d' := by
      rw [← hqs]
      exact hq1
    refine ⟨m, hm, ?_⟩
    rw [hmid, ← hp1, hpd]

/-- Sample match table for loader witnesses. -/
def msSample : List MatchRow :=
  [⟨1, 2020, "C", "T1", "T2", "T1", "T1", "P", "V"⟩]

/-- Sample cleaned deliveries: one matched (match 1), one unmatched (match 7). -/
def dsSample : List DeliveryFilled :=
  [⟨1, "A", "B", 1, 1, "None", "None", none, "None", "T1", "T2"⟩,
   ⟨7, "A", "B", 1, 1, "None", "None", none, "None", "T1", "T2"⟩]

/-- Witness for C4: one matched and one unmatched delivery against a
one-match table; the unmatched count is 1. -/
theorem deliveriesWithSeason_spec_witness :
    (msSample.map (fun m => m.id)).Nodup ∧ unmatchedCount dsSample msSample = 1 :=
  ⟨by decide,
    ((deliveriesWithSeason_spec dsSample msSample (by decide)).2.1).trans
      (by decide)⟩

/-! ### KPI computations (`data_processor.py`, `calculate_kpis`)

The normalized delivery table the KPI layer consumes (season merged in,
`fielder` still nullable after line 52 of the loader). -/

structure Delivery where
  match_id : Int
  season : Int
  batter : String
  bowler : String
  batsman_runs : Int
  total_runs : Int
  dismissal_kind : String
  player_dismissed : String
  fielder : Option String
  batting_team : String
deriving DecidableEq, Repr

/-- Lexicographic `≤` on character lists by code point (the sort order
pandas uses for string group keys). -/
def listLeB : List Char → List Char → Bool
  | [], _ => true
  | _ :: _, [] => false
  | a :: as, b :: bs =>
    if a.toNat < b.toNat then true
    else if b.toNat < a.toNat then false
    else listLeB as bs

/-- String `≤` used when `groupby` sorts string keys. -/
def strLe (a b : String) : Prop := listLeB a.toList b.toList = true

instance : DecidableRel strLe := fun a b => by
  unfold strLe
  infer_instance

/-- `(season, name)` lexicographic order for two-level group keys. -/
def pairLe (a b : Int × String) : Prop :=
  a.1 < b.1 ∨ (a.1 = b.1 ∧ strLe a.2 b.2)

instance : DecidableRel pairLe := fun a b => by
  unfold pairLe
  infer_instance

/-- Descending-by-value order for `sort_values(ascending=False)` on a
series of counts/sums. -/
def valDesc (a b : String × Int) : Prop := b.2 ≤ a.2

instance : DecidableRel valDesc := fun a b => by
  unfold valDesc
  infer_instance

/-- `value_counts()`: distinct values with their multiplicities, sorted by
count descending (pandas sorts by count; the sort is stable here). -/
def valueCounts (l : List String) : List (String × Int) :=
  List.insertionSort valDesc (l.dedup.map (fun v => (v, (l.count v : Int))))

/-- `.sort_values(ascending=False).head(10)` on a keyed count/sum series. -/
def top10 (l : List (String × Int)) : List (String × Int) :=
  (List.insertionSort valDesc l).take 10

/-- `groupby(key)` + aggregate over a delivery table: one row per distinct
key (sorted, as pandas sorts group keys), aggregating the key's rows. -/
def groupAggBy (rows : List Delivery) (key : Delivery → String)
    (agg : List Delivery → Int) : List (String × Int) :=
  (List.insertionSort strLe ((rows.map key).dedup)).map
    (fun k => (k, agg (rows.filter (fun d => decide (key d = k)))))

/-- `groupby(['season', who])` + aggregate + `reset_index()`: one row per
distinct (season, player) pair, sorted by the pair key. -/
def pairAgg (rows : List Delivery) (who : Delivery → String)
    (agg : List Delivery → Int) : List (Int × String × Int) :=
  (List.insertionSort pairLe ((rows.map (fun d => (d.season, who d))).dedup)).map
    (fun p => (p.1, p.2,
      agg (rows.filter (fun d => decide (d.season = p.1) && decide (who d = p.2)))))

/-- `idxmax` selection: the first element attaining the maximum of `f`. -/
def firstArgmax? (f : α → Int) : List α → Option α
  | [] => none
  | x :: xs => some (xs.foldl (fun best a => if f a > f best then a else best) x)

/-- `df.loc[df.groupby('season')[value].idxmax()]`: for each season present
in `rps` (in order of first appearance of the sorted table), the first row
of that season attaining the season's maximum value. -/
def capFrom (rps : List (Int × String × Int)) : List (Int × String × Int) :=
  ((rps.map (fun r => r.1)).dedup).filterMap
    (fun s => firstArgmax? (fun r => r.2.2) (rps.filter (fun r => decide (r.1 = s))))

/-- Lines 49–50: per-season run totals per batter. -/
def runs_per_season (ds : List Delivery) : List (Int × String × Int) :=
  pairAgg ds (fun d => d.batter) (fun g => (g.map (fun d => d.batsman_runs)).sum)

/-- Line 50: the orange-cap table. -/
def orange_cap (ds : List Delivery) : List (Int × String × Int) :=
  capFrom (runs_per_season ds)

/-- Line 57: dismissal kinds crediting the bowler. -/
def wicket_kinds : List String :=
  ["caught", "bowled", "lbw", "stumped", "caught and bowled", "hit wicket"]

/-- Line 57: `deliveries[deliveries['dismissal_kind'].isin(...)]`. -/
def wicketsOf (ds : List Delivery) : List Delivery :=
  ds.filter (fun d => wicket_kinds.contains d.dismissal_kind)

/-- Line 58: per-season wicket counts per bowler (`.count()` of the non-null
`player_dismissed` column is the group size). -/
def wickets_per_season (ds : List Delivery) : List (Int × String × Int) :=
  pairAgg (wicketsOf ds) (fun d => d.bowler)
    (fun g => ((g.map (fun d => d.player_dismissed)).length : Int))

/-- Line 59: the purple-cap table. -/
def purple_cap (ds : List Delivery) : List (Int × String × Int) :=
  capFrom (wickets_per_season ds)

/-- Line 80: deliveries scoring six. -/
def sixesOf (ds : List Delivery) : List Delivery :=
  ds.filter (fun d => decide (d.batsman_runs = 6))

/-- Line 91: deliveries scoring four. -/
def foursOf (ds : List Delivery) : List Delivery :=
  ds.filter (fun d => decide (d.batsman_runs = 4))

/-- Lines 82–83: per-season sixes leader table. -/
def most_sixes_per_season (ds : List Delivery) : List (Int × String × Int) :=
  capFrom (pairAgg (sixesOf ds) (fun d => d.batter)
    (fun g => ((g.map (fun d => d.batsman_runs)).length : Int)))

/-- Lines 93–94: per-season fours leader table. -/
def most_fours_per_season (ds : List Delivery) : List (Int × String × Int) :=
  capFrom (pairAgg (foursOf ds) (fun d => d.batter)
    (fun g => ((g.map (fun d => d.batsman_runs)).length : Int)))

/-- Line 66: overall top-10 run scorers. -/
def most_runs_total (ds : List Delivery) : List (String × Int) :=
  top10 (groupAggBy ds (fun d => d.batter)
    (fun g => (g.map (fun d => d.batsman_runs)).sum))

/-- Line 73: overall top-10 wicket takers (over the `wickets` subset). -/
def most_wickets_total (w : List Delivery) : List (String × Int) :=
  top10 (groupAggBy w (fun d => d.bowler)
    (fun g => ((g.map (fun d => d.player_dismissed)).length : Int)))

/-- Line 81: overall top-10 six hitters. -/
def most_sixes_kpi (ds : List Delivery) : List (String × Int) :=
  top10 (groupAggBy (sixesOf ds) (fun d => d.batter)
    (fun g => ((g.map (fun d => d.batsman_runs)).length : Int)))

/-- Line 92: overall top-10 four hitters. -/
def most_fours_kpi (ds : List Delivery) : List (String × Int) :=
  top10 (groupAggBy (foursOf ds) (fun d => d.batter)
    (fun g => ((g.map (fun d => d.batsman_runs)).length : Int)))

/-- `groupby('fielder')` drops null keys; counts per non-null fielder. -/
def fielderCounts (rows : List Delivery) : List (String × Int) :=
  (List.insertionSort strLe ((rows.filterMap (fun d => d.fielder)).dedup)).map
    (fun k => (k, ((rows.filter (fun d => d.fielder == some k)).length : Int)))

/-- Line 103: top-10 catchers. -/
def most_catches (ds : List Delivery) : List (String × Int) :=
  top10 (fielderCounts (ds.filter (fun d => decide (d.dismissal_kind = "caught"))))

/-- Line 111: top-10 stumpers. -/
def most_stumps (ds : List Delivery) : List (String × Int) :=
  top10 (fielderCounts (ds.filter (fun d => decide (d.dismissal_kind = "stumped"))))

/-- Line 119: top-10 run-out fielders. -/
def most_run_outs (ds : List Delivery) : List (String × Int) :=
  top10 (fielderCounts (ds.filter (fun d => decide (d.dismissal_kind = "run out"))))

/-- Line 126: distinct-match appearances per batter, top 10. -/
def most_matches_played (ds : List Delivery) : List (String × Int) :=
  top10
    (let pairs := (ds.map (fun d => (d.batter, d.match_id))).dedup
     (List.insertionSort strLe ((pairs.map (fun p => p.1)).dedup)).map
       (fun b => (b, ((pairs.filter (fun p => decide (p.1 = b))).length : Int))))

/-- Line 18: `pd.concat([matches['team1'], matches['team2']])`. -/
def teamsConcat (ms : List MatchRow) : List String :=
  ms.map (fun m => m.team1) ++ ms.map (fun m => m.team2)

/-- Line 18: `pd.concat([team1, team2]).value_counts()`. -/
def team_matches_kpi (ms : List MatchRow) : List (String × Int) :=
  valueCounts (teamsConcat ms)

/-- Line 25: winners of decided matches, in row order. -/
def winnersList (ms : List MatchRow) : List String :=
  (ms.filter (fun m => decide (m.winner ≠ "No Result"))).map (fun m => m.winner)

/-- Line 25: `value_counts` of decided-match winners (`team_wins`). -/
def team_wins_kpi (ms : List MatchRow) : List (String × Int) :=
  valueCounts (winnersList ms)

/-- Line 26: `most_wins` (identical to `team_wins`; the guard only replaces
an empty series by an empty series). -/
def most_wins_kpi (ms : List MatchRow) : List (String × Int) :=
  if (team_wins_kpi ms).isEmpty then [] else team_wins_kpi ms

/-- Index union for aligned series arithmetic (sorted distinct keys, as
pandas aligns differing indexes). -/
def unionKeys (a b : List (String × Int)) : List String :=
  List.insertionSort strLe ((a.map Prod.fst ++ b.map Prod.fst).dedup)

/-- Series subtraction with alignment: `a - b`; a key missing on either
side yields a null (NaN). -/
def seriesSub (a b : List (String × Int)) : List (String × Option Int) :=
  (unionKeys a b).map (fun k =>
    (k, match a.lookup k, b.lookup k with
        | some x, some y => some (x - y)
        | _, _ => none))

/-- `fillna(other_series)`: nulls are filled from the other series by key
(staying null if the key is absent there). -/
def seriesFillna (s : List (String × Option Int)) (f : List (String × Int)) :
    List (String × Option Int) :=
  s.map (fun p =>
    (p.1, match p.2 with
          | some x => some x
          | none => f.lookup p.1))

/-- `sort_values(ascending=False)` comparator with NaN last. -/
def naDescLeB (a b : Option Int) : Bool :=
  match a, b with
  | none, none => true
  | none, some _ => false
  | some _, none => true
  | some x, some y => decide (y ≤ x)

/-- Line 33: `(team_matches - team_wins).fillna(team_matches)`, the
per-team loss series. -/
def losses_series (ms : List MatchRow) : List (String × Option Int) :=
  seriesFillna (seriesSub (team_matches_kpi ms) (team_wins_kpi ms))
    (team_matches_kpi ms)

/-- Line 33: `most_losses = losses.sort_values(ascending=False).head(1)`. -/
def most_losses_kpi (ms : List MatchRow) : List (String × Option Int) :=
  (List.insertionSort (fun a b : String × Option Int => naDescLeB a.2 b.2 = true)
    (losses_series ms)).take 1

/-- Line 40: toss wins per team. -/
def toss_wins_kpi (ms : List MatchRow) : List (String × Int) :=
  valueCounts (ms.map (fun m => m.toss_winner))

/-- Line 41: `most_toss_wins = toss_wins.head(1)` (empty stays empty). -/
def most_toss_wins_kpi (ms : List MatchRow) : List (String × Int) :=
  if (toss_wins_kpi ms).isEmpty then [] else (toss_wins_kpi ms).take 1

/-- Line 151: player-of-the-match award counts (excluding "None"), top 10. -/
def most_pom_awards (ms : List MatchRow) : List (String × Int) :=
  (valueCounts ((ms.filter (fun m => decide (m.player_of_match ≠ "None"))).map
    (fun m => m.player_of_match))).take 10

/-- Line 158: match counts per venue. -/
def stadium_matches (ms : List MatchRow) : List (String × Int) :=
  valueCounts (ms.map (fun m => m.venue))

/-! #### Highest team totals (lines 132–143) -/

/-- One row of the `highest_team_totals` table; `opponent` is null when the
parent match is missing (NaN teams). -/
structure TTRow where
  match_id : Int
  batting_team : String
  opponent : Option String
  total_runs : Int
deriving DecidableEq, Repr

/-- `(match_id, batting_team)` groups with summed `total_runs` (line 135).
Reuses the two-level grouping shape with `match_id` as the first key. -/
def team_totals_base (ds : List Delivery) : List (Int × String × Int) :=
  (List.insertionSort pairLe
      ((ds.map (fun d => (d.match_id, d.batting_team))).dedup)).map
    (fun p => (p.1, p.2,
      ((ds.filter (fun d =>
        decide (d.match_id = p.1) && decide (d.batting_team = p.2))).map
          (fun d => d.total_runs)).sum))

/-- Lines 138–139: `team2 if batting_team == team1 else team1`; comparison
with NaN is false, so a missing match yields `team1` (null). -/
def get_opponent (bt : String) (t1 t2 : Option String) : Option String :=
  if t1 = some bt then t2 else t1

/-- Line 136 + 141: left-merge a totals group with `matches[['id','team1','team2']]`
and attach the opponent. -/
def joinOpponent (ms : List MatchRow) (g : Int × String × Int) : List TTRow :=
  let hits := ms.filter (fun m => decide (m.id = g.1))
  if hits.isEmpty then [⟨g.1, g.2.1, get_opponent g.2.1 none none, g.2.2⟩]
  else hits.map (fun m =>
    ⟨g.1, g.2.1, get_opponent g.2.1 (some m.team1) (some m.team2), g.2.2⟩)

/-- The merged, opponent-annotated totals table (lines 135–142). -/
def team_totals_joined (ms : List MatchRow) (ds : List Delivery) : List TTRow :=
  (team_totals_base ds).flatMap (joinOpponent ms)

/-- Descending order on totals for `sort_values('total_runs', ascending=False)`. -/
def ttDesc (a b : TTRow) : Prop := b.total_runs ≤ a.total_runs

instance : DecidableRel ttDesc := fun a b => by
  unfold ttDesc
  infer_instance

/-- Line 143: the `highest_team_totals` KPI. -/
def highest_team_totals (ms : List MatchRow) (ds : List Delivery) : List TTRow :=
  (List.insertionSort ttDesc (team_totals_joined ms ds)).take 10

/-! #### Cumulative runs (lines 163–173) -/

/-- Line 166: all-time totals per batter over `runs_per_season` (sorted
group keys, then summed). -/
def batter_totals (rps : List (Int × String × Int)) : List (String × Int) :=
  (List.insertionSort strLe ((rps.map (fun r => r.2.1)).dedup)).map
    (fun b => (b, ((rps.filter (fun r => decide (r.2.1 = b))).map
      (fun r => r.2.2)).sum))

/-- Line 166: `.sort_values(ascending=False).head(5).index`. -/
def top_batters (ds : List Delivery) : List String :=
  ((List.insertionSort valDesc (batter_totals (runs_per_season ds))).take 5).map
    (fun p => p.1)

/-- Line 168: `runs_per_season` restricted to the top batters. -/
def cum_filtered (ds : List Delivery) : List (Int × String × Int) :=
  (runs_per_season ds).filter (fun r => (top_batters ds).contains r.2.1)

/-- Pivot index: the seasons present in the filtered rows, ascending
(`sort_index()`). -/
def cum_seasons (ds : List Delivery) : List Int :=
  List.insertionSort (fun a b : Int => a ≤ b) (((cum_filtered ds).map (fun r => r.1)).dedup)

/-- One pivot cell, `fillna(0)` for an absent (season, batter) pair. -/
def pivot_cell (ds : List Delivery) (s : Int) (b : String) : Int :=
  (((cum_filtered ds).filter (fun r =>
    decide (r.1 = s) && decide (r.2.1 = b))).map (fun r => r.2.2)).headD 0

/-- Running sum with accumulator (`cumsum` down one column). -/
def cumsumFrom (acc : Int) : List Int → List Int
  | [] => []
  | x :: xs => (acc + x) :: cumsumFrom (acc + x) xs

/-- `cumsum()` of one column. -/
def cumsum (l : List Int) : List Int := cumsumFrom 0 l

/-- One batter's cumulative-run column over the sorted season index. -/
def cum_column (ds : List Delivery) (b : String) : List Int :=
  cumsum ((cum_seasons ds).map (fun s => pivot_cell ds s b))

/-- Lines 168–170: the `cumulative_runs` pivot, represented column-wise
(pivot columns are the distinct filtered batters, sorted). -/
def cumulative_runs_kpi (ds : List Delivery) : List (String × List Int) :=
  (List.insertionSort strLe (((cum_filtered ds).map (fun r => r.2.1)).dedup)).map
    (fun b => (b, cum_column ds b))

/-! #### `idxmax` and per-season cap lemmas (C5) -/

theorem foldl_argmax_spec (f : α → Int) :
    ∀ (xs : List α) (x : α),
      (xs.foldl (fun best a => if f a > f best then a else best) x) ∈ x :: xs ∧
      f x ≤ f (xs.foldl (fun best a => if f a > f best then a else best) x) ∧
      ∀ b ∈ xs, f b ≤ f (xs.foldl (fun best a => if f a > f best then a else best) x) := by
  intro xs
  induction xs with
  | nil =>
    intro x
    refine ⟨List.mem_singleton.2 rfl, le_refl _, ?_⟩
    intro b hb
    simp at hb
  | cons a t ih =>
    intro x
    simp only [List.foldl_cons]
    obtain ⟨hmem, hle, hall⟩ := ih (if f a > f x then a else x)
    have hxle : f x ≤ f (if f a > f x then a else x) := by
      by_cases h : f a > f x
      · rw [if_pos h]; omega
      · rw [if_neg h]
    have hale : f a ≤ f (if f a > f x then a else x) := by
      by_cases h : f a > f x
      · rw [if_pos h]
      · rw [if_neg h]; omega
    refine ⟨?_, le_trans hxle hle, ?_⟩
    · rcases List.mem_cons.1 hmem with h | h
      · rw [h]
        by_cases hc : f a > f x
        · rw [if_pos hc]
          exact List.mem_cons_of_mem _ (List.mem_cons_self _ _)
        · rw [if_neg hc]
          exact List.mem_cons_self _ _
      · exact List.mem_cons_of_mem _ (List.mem_cons_of_mem _ h)
    · intro b hb
      rcases List.mem_cons.1 hb with h | h
      · rw [h]
        exact le_trans hale hle
      · exact hall b h

theorem firstArgmax?_isSome {f : α → Int} {l : List α} (h : l ≠ []) :
    (firstArgmax? f l).isSome := by
  cases l with
  | nil => exact absurd rfl h
  | cons x xs => rfl

theorem firstArgmax?_mem {f : α → Int} {l : List α} {a : α}
    (h : firstArgmax? f l = some a) : a ∈ l := by
  cases l with
  | nil => simp [firstArgmax?] at h
  | cons x xs =>
    unfold firstArgmax? at h
    have := (foldl_argmax_spec f xs x).1
    rw [Option.some_inj.1 h] at this
    exact this

theorem firstArgmax?_max {f : α → Int} {l : List α} {a : α}
    (h : firstArgmax? f l = some a) : ∀ b ∈ l, f b ≤ f a := by
  cases l with
  | nil => simp [firstArgmax?] at h
  | cons x xs =>
    unfold firstArgmax? at h
    obtain ⟨_, hx, hall⟩ := foldl_argmax_spec f xs x
    intro b hb
    rcases List.mem_cons.1 hb with hbx | hbt
    · rw [hbx, ← Option.some_inj.1 h]
      exact hx
    · rw [← Option.some_inj.1 h]
      exact hall b hbt

theorem filterMap_map_eq_self {α β : Type} (g : α → Option β) (h : β → α)
    (l : List α) (H : ∀ x ∈ l, ∃ y, g x = some y ∧ h y = x) :
    (l.filterMap g).map h = l := by
  induction l with
  | nil => rfl
  | cons a t ih =>
    obtain ⟨y, hg, hh⟩ := H a (List.mem_cons_self a t)
    rw [List.filterMap_cons, hg, List.map_cons, hh,
      ih (fun x hx => H x (List.mem_cons_of_mem a hx))]

/-- Every cap row comes from the grouped table and attains the per-season
maximum. -/
theorem capFrom_row_spec {rps : List (Int × String × Int)} {r : Int × String × Int}
    (h : r ∈ capFrom rps) :
    r ∈ rps ∧ ∀ r' ∈ rps, r'.1 = r.1 → r'.2.2 ≤ r.2.2 := by
  unfold capFrom at h
  obtain ⟨s, _, hfa⟩ := List.mem_filterMap.1 h
  have hmem := firstArgmax?_mem hfa
  obtain ⟨hrps, hkey⟩ := List.mem_filter.1 hmem
  have hkey' : r.1 = s := by simpa using hkey
  refine ⟨hrps, ?_⟩
  intro r' hr' heq
  exact firstArgmax?_max hfa r'
    (List.mem_filter.2 ⟨hr', by simpa using heq.trans hkey'⟩)

/-- The cap table's season column is exactly the distinct seasons of the
grouped table. -/
theorem capFrom_keys (rps : List (Int × String × Int)) :
    (capFrom rps).map (fun r => r.1) = (rps.map (fun r => r.1)).dedup := by
  unfold capFrom
  apply filterMap_map_eq_self
  intro s hs
  have hsm : s ∈ rps.map (fun r => r.1) := List.mem_dedup.1 hs
  obtain ⟨row, hrow, hrs⟩ := List.mem_map.1 hsm
  have hne : rps.filter (fun r => decide (r.1 = s)) ≠ [] := by
    intro hnil
    have : row ∈ rps.filter (fun r => decide (r.1 = s)) :=
      List.mem_filter.2 ⟨hrow, by simpa using hrs⟩
    rw [hnil] at this
    simp at this
  obtain ⟨y, hy⟩ := Option.isSome_iff_exists.1 (firstArgmax?_isSome hne)
  refine ⟨y, hy, ?_⟩
  have := List.mem_filter.1 (firstArgmax?_mem hy)
  simpa using this.2

theorem countP_key_eq_count (l : List (Int × String × Int)) (s : Int) :
    l.countP (fun r => decide (r.1 = s)) = (l.map (fun r => r.1)).count s := by
  rw [List.count, List.countP_map]
  rfl

/-- `capFrom` has exactly one row per season present in the grouped table. -/
theorem capFrom_countP (rps : List (Int × String × Int)) (s : Int) :
    (capFrom rps).countP (fun r => decide (r.1 = s)) =
      if s ∈ rps.map (fun r => r.1) then 1 else 0 := by
  rw [countP_key_eq_count, capFrom_keys]
  by_cases h : s ∈ rps.map (fun r => r.1)
  · rw [if_pos h]
    exact List.count_eq_one_of_mem (List.nodup_dedup _) (List.mem_dedup.2 h)
  · rw [if_neg h]
    exact List.count_eq_zero.2 (fun hc => h (List.mem_dedup.1 hc))

/-- The grouped table's seasons are the seasons of its input rows. -/
theorem pairAgg_keys_mem (rows : List Delivery) (who : Delivery → String)
    (agg : List Delivery → Int) (s : Int) :
    s ∈ (pairAgg rows who agg).map (fun r => r.1) ↔
      s ∈ rows.map (fun d => d.season) := by
  unfold pairAgg
  rw [List.map_map]
  simp only [List.mem_map, Function.comp, List.mem_insertionSort, List.mem_dedup]
  constructor
  · rintro ⟨p, hp, hps⟩
    obtain ⟨d, hd, hdp⟩ := hp
    exact ⟨d, hd, by rw [← hdp] at hps; simpa using hps⟩
  · rintro ⟨d, hd, hds⟩
    exact ⟨(d.season, who d), ⟨d, hd, rfl⟩, hds⟩

/-- C5 (claim refuted): a season present in the deliveries but with no
bowler-crediting dismissal has no purple-cap row, so the purple-cap table
does not contain one row for every season present in the input. -/
theorem per_season_caps_counterexample :
    (2020 : Int) ∈
      (([⟨1, 2020, "A", "B", 1, 1, "None", "None", none, "T1"⟩] :
        List Delivery).map (fun d => d.season))
    ∧ purple_cap [⟨1, 2020, "A", "B", 1, 1, "None", "None", none, "T1"⟩] = [] := by
  constructor
  · decide
  · rfl

/-- C5 (amended): the orange-cap table has exactly one row per season
present in the deliveries; the purple-cap, sixes and fours per-season
tables have exactly one row per season present in their filtered inputs
(deliveries with a bowler-crediting dismissal / a six / a four); and every
row of each of the four tables attains the maximum aggregate among its
season's rows of the corresponding grouped table. -/
theorem per_season_caps_spec (ds : List Delivery) (s : Int) :
    ((orange_cap ds).countP (fun r => decide (r.1 = s)) =
      if s ∈ ds.map (fun d => d.season) then 1 else 0)
    ∧ ((purple_cap ds).countP (fun r => decide (r.1 = s)) =
      if s ∈ (wicketsOf ds).map (fun d => d.season) then 1 else 0)
    ∧ ((most_sixes_per_season ds).countP (fun r => decide (r.1 = s)) =
      if s ∈ (sixesOf ds).map (fun d => d.season) then 1 else 0)
    ∧ ((most_fours_per_season ds).countP (fun r => decide (r.1 = s)) =
      if s ∈ (foursOf ds).map (fun d => d.season) then 1 else 0)
    ∧ (∀ r ∈ orange_cap ds, r ∈ runs_per_season ds ∧
        ∀ r' ∈ runs_per_season ds, r'.1 = r.1 → r'.2.2 ≤ r.2.2)
    ∧ (∀ r ∈ purple_cap ds, r ∈ wickets_per_season ds ∧
        ∀ r' ∈ wickets_per_season ds, r'.1 = r.1 → r'.2.2 ≤ r.2.2)
    ∧ (∀ r ∈ most_sixes_per_season ds,
        r ∈ pairAgg (sixesOf ds) (fun d => d.batter)
            (fun g => ((g.map (fun d => d.batsman_runs)).length : Int)) ∧
        ∀ r' ∈ pairAgg (sixesOf ds) (fun d => d.batter)
            (fun g => ((g.map (fun d => d.batsman_runs)).length : Int)),
          r'.1 = r.1 → r'.2.2 ≤ r.2.2)
    ∧ (∀ r ∈ most_fours_per_season ds,
        r ∈ pairAgg (foursOf ds) (fun d => d.batter)
            (fun g => ((g.map (fun d => d.batsman_runs)).length : Int)) ∧
        ∀ r' ∈ pairAgg (foursOf ds) (fun d => d.batter)
            (fun g => ((g.map (fun d => d.batsman_runs)).length : Int)),
          r'.1 = r.1 → r'.2.2 ≤ r.2.2) := by
  have hcount : ∀ (rows : List Delivery) (who : Delivery → String)
      (agg : List Delivery → Int),
      (capFrom (pairAgg rows who agg)).countP (fun r => decide (r.1 = s)) =
        if s ∈ rows.map (fun d => d.season) then 1 else 0 := by
    intro rows who agg
    rw [capFrom_countP]
    by_cases h : s ∈ rows.map (fun d => d.season)
    · rw [if_pos ((pairAgg_keys_mem rows who agg s).2 h), if_pos h]
    · rw [if_neg (fun hc => h ((pairAgg_keys_mem rows who agg s).1 hc)), if_neg h]
  refine ⟨hcount ds _ _, hcount (wicketsOf ds) _ _, hcount (sixesOf ds) _ _,
    hcount (foursOf ds) _ _, ?_, ?_, ?_, ?_⟩
  · intro r hr
    exact capFrom_row_spec hr
  · intro r hr
    exact capFrom_row_spec hr
  · intro r hr
    exact capFrom_row_spec hr
  · intro r hr
    exact capFrom_row_spec hr

/-- Sample deliveries for KPI witnesses: two batters in one season, one
bowler-credited wicket. -/
def dsKpi : List Delivery :=
  [⟨1, 2020, "A", "X", 6, 6, "None", "None", none, "T1"⟩,
   ⟨1, 2020, "A", "X", 4, 4, "None", "None", none, "T1"⟩,
   ⟨1, 2020, "B", "X", 1, 1, "caught", "A", some "F", "T1"⟩]

/-- Witness for C5 at a concrete input: one orange-cap row for season 2020,
and the cap row attains the maximum. -/
theorem per_season_caps_spec_witness :
    (orange_cap dsKpi).countP (fun r => decide (r.1 = 2020)) = 1 ∧
      ((2020 : Int), "A", (10 : Int)) ∈ runs_per_season dsKpi ∧
      (∀ r' ∈ runs_per_season dsKpi, r'.1 = 2020 → r'.2.2 ≤ 10) := by
  refine ⟨(per_season_caps_spec dsKpi 2020).1.trans (by decide), ?_⟩
  have h := (per_season_caps_spec dsKpi 2020).2.2.2.2.1
    ((2020 : Int), "A", (10 : Int)) (by decide)
  exact ⟨h.1, fun r' hr' he => h.2 r' hr' he⟩

/-! #### Series-lookup lemmas and wins/losses accounting (C6) -/

theorem lookup_eq_some_of_mem {β : Type} {s : List (String × β)}
    (hnd : (s.map Prod.fst).Nodup) {k : String} {v : β} (hm : (k, v) ∈ s) :
    s.lookup k = some v := by
  induction s with
  | nil => simp at hm
  | cons p r ih =>
    rw [List.map_cons, List.nodup_cons] at hnd
    rw [List.lookup]
    rcases hk : k == p.1 with _ | _
    · simp only [hk]
      rcases List.mem_cons.1 hm with h | h
      · exfalso
        rw [← h] at hk
        simp at hk
      · exact ih hnd.2 h
    · simp only [hk]
      have hkp : k = p.1 := beq_iff_eq.1 hk
      rcases List.mem_cons.1 hm with h | h
      · rw [← h]
      · exfalso
        apply hnd.1
        rw [← hkp]
        exact List.mem_map.2 ⟨(k, v), h, rfl⟩

theorem lookup_eq_none_of_not_mem {β : Type} {s : List (String × β)} {k : String}
    (h : k ∉ s.map Prod.fst) : s.lookup k = none := by
  induction s with
  | nil => rfl
  | cons p r ih =>
    rw [List.map_cons] at h
    rw [List.lookup]
    rcases hk : k == p.1 with _ | _
    · simp only [hk]
      exact ih (fun hc => h (List.mem_cons_of_mem _ hc))
    · exfalso
      exact h (List.mem_cons.2 (Or.inl (beq_iff_eq.1 hk)))

theorem lookup_keyed_map {β : Type} (keys : List String) (f : String → β)
    (hnd : keys.Nodup) {t : String} (ht : t ∈ keys) :
    (keys.map (fun k => (k, f k))).lookup t = some (f t) := by
  apply lookup_eq_some_of_mem
  · rw [List.map_map,
      show (Prod.fst ∘ fun k => (k, f k)) = (id : String → String) from rfl,
      List.map_id]
    exact hnd
  · exact List.mem_map.2 ⟨t, ht, rfl⟩

/-- `value_counts` keys are exactly the distinct input values. -/
theorem valueCounts_keys_mem (l : List String) (t : String) :
    t ∈ (valueCounts l).map Prod.fst ↔ t ∈ l := by
  unfold valueCounts
  constructor
  · intro h
    obtain ⟨p, hp, hps⟩ := List.mem_map.1 h
    have := List.mem_insertionSort valDesc |>.1 hp
    obtain ⟨v, hv, hvp⟩ := List.mem_map.1 this
    rw [← hps, ← hvp]
    exact List.mem_dedup.1 hv
  · intro h
    exact List.mem_map.2 ⟨(t, (l.count t : Int)),
      (List.mem_insertionSort valDesc).2
        (List.mem_map.2 ⟨t, List.mem_dedup.2 h, rfl⟩), rfl⟩

theorem valueCounts_keys_nodup (l : List String) :
    ((valueCounts l).map Prod.fst).Nodup := by
  unfold valueCounts
  have hperm : ((List.insertionSort valDesc
      (l.dedup.map (fun v => (v, (l.count v : Int))))).map Prod.fst).Perm
      ((l.dedup.map (fun v => (v, (l.count v : Int)))).map Prod.fst) :=
    (List.perm_insertionSort valDesc _).map Prod.fst
  apply hperm.nodup_iff.2
  rw [List.map_map,
    show (Prod.fst ∘ fun v => (v, (l.count v : Int))) = (id : String → String)
      from rfl,
    List.map_id]
  exact l.nodup_dedup

theorem valueCounts_lookup {l : List String} {t : String} (ht : t ∈ l) :
    (valueCounts l).lookup t = some ((l.count t : Int)) :=
  lookup_eq_some_of_mem (valueCounts_keys_nodup l)
    ((List.mem_insertionSort valDesc).2
      (List.mem_map.2 ⟨t, List.mem_dedup.2 ht, rfl⟩))

theorem valueCounts_lookup_none {l : List String} {t : String} (ht : t ∉ l) :
    (valueCounts l).lookup t = none :=
  lookup_eq_none_of_not_mem (fun hc => ht ((valueCounts_keys_mem l t).1 hc))

theorem unionKeys_nodup (a b : List (String × Int)) : (unionKeys a b).Nodup :=
  ((List.perm_insertionSort strLe _).nodup_iff).2 (List.nodup_dedup _)

theorem mem_unionKeys_left {a b : List (String × Int)} {t : String}
    (h : t ∈ a.map Prod.fst) : t ∈ unionKeys a b :=
  (List.mem_insertionSort strLe).2
    (List.mem_dedup.2 (List.mem_append.2 (Or.inl h)))

/-- C6: for every team `t` appearing in the matches table, writing `M` for
its `team_matches` count and `W` for its decided-match wins, the KPI series
report exactly these quantities and the loss series holds `M - W`, so
`wins + losses = matches played`.  The `most_losses` KPI rows are rows of
the loss series. -/
theorem wins_losses_matches_spec (ms : List MatchRow) (t : String)
    (ht : t ∈ teamsConcat ms) :
    (team_matches_kpi ms).lookup t = some (((teamsConcat ms).count t : Int))
    ∧ (losses_series ms).lookup t =
        some (some (((teamsConcat ms).count t : Int) -
          ((winnersList ms).count t : Int)))
    ∧ ((winnersList ms).count t : Int) +
        (((teamsConcat ms).count t : Int) - ((winnersList ms).count t : Int)) =
        ((teamsConcat ms).count t : Int)
    ∧ (0 < (winnersList ms).count t →
        (most_wins_kpi ms).lookup t = some (((winnersList ms).count t : Int)))
    ∧ (∀ p ∈ most_losses_kpi ms, p ∈ losses_series ms) := by
  have hM : (team_matches_kpi ms).lookup t = some (((teamsConcat ms).count t : Int)) :=
    valueCounts_lookup ht
  have htu : t ∈ unionKeys (team_matches_kpi ms) (team_wins_kpi ms) :=
    mem_unionKeys_left ((valueCounts_keys_mem _ t).2 ht)
  have hsub : (losses_series ms).lookup t =
      some (match (team_matches_kpi ms).lookup t, (team_wins_kpi ms).lookup t with
            | some x, some y =>
                match some (x - y) with
                | some z => some z
                | none => (team_matches_kpi ms).lookup t
            | _, _ =>
                match (none : Option Int) with
                | some z => some z
                | none => (team_matches_kpi ms).lookup t) := by
    unfold losses_series seriesFillna seriesSub
    rw [List.map_map]
    have := lookup_keyed_map
      (unionKeys (team_matches_kpi ms) (team_wins_kpi ms))
      (fun k =>
        match (team_matches_kpi ms).lookup k, (team_wins_kpi ms).lookup k with
        | some x, some y =>
            match some (x - y) with
            | some z => some z
            | none => (team_matches_kpi ms).lookup k
        | _, _ =>
            match (none : Option Int) with
            | some z => some z
            | none => (team_matches_kpi ms).lookup k)
      (unionKeys_nodup _ _) htu
    refine Eq.trans ?_ this
    have hmapeq :
        ∀ k ∈ unionKeys (team_matches_kpi ms) (team_wins_kpi ms),
          ((fun p : String × Option Int =>
              (p.1, match p.2 with
                    | some x => some x
                    | none => (team_matches_kpi ms).lookup p.1)) ∘
            (fun k =>
              (k, match (team_matches_kpi ms).lookup k,
                    (team_wins_kpi ms).lookup k with
                  | some x, some y => some (x - y)
                  | _, _ => none))) k =
          (k,
            match (team_matches_kpi ms).lookup k, (team_wins_kpi ms).lookup k with
            | some x, some y =>
                match some (x - y) with
                | some z => some z
                | none => (team_matches_kpi ms).lookup k
            | _, _ =>
                match (none : Option Int) with
                | some z => some z
                | none => (team_matches_kpi ms).lookup k) := by
      intro k _
      simp only [Function.comp_apply]
      cases (team_matches_kpi ms).lookup k <;>
        cases (team_wins_kpi ms).lookup k <;> rfl
    rw [List.map_congr_left hmapeq]
  refine ⟨hM, ?_, by omega, ?_, ?_⟩
  · by_cases hw : t ∈ winnersList ms
    · have hW : (team_wins_kpi ms).lookup t =
          some (((winnersList ms).count t : Int)) := valueCounts_lookup hw
      rw [hsub, hM, hW]
    · have hW : (team_wins_kpi ms).lookup t = none := valueCounts_lookup_none hw
      have hc0 : (winnersList ms).count t = 0 := List.count_eq_zero.2 hw
      rw [hsub, hM, hW, hc0]
      norm_num
  · intro hpos
    have hw : t ∈ winnersList ms := List.count_pos_iff.1 hpos
    have hne : ¬ (team_wins_kpi ms).isEmpty := by
      rw [List.isEmpty_iff]
      intro hnil
      have : (t, ((winnersList ms).count t : Int)) ∈ team_wins_kpi ms :=
        (List.mem_insertionSort valDesc).2
          (List.mem_map.2 ⟨t, List.mem_dedup.2 hw, rfl⟩)
      rw [hnil] at this
      simp at this
    unfold most_wins_kpi
    rw [if_neg hne]
    exact valueCounts_lookup hw
  · intro p hp
    unfold most_losses_kpi at hp
    have := List.mem_of_mem_take hp
    exact (List.mem_insertionSort _).1 this

/-- Sample matches for the C6 witness: one decided match and one
"No Result" between the same teams. -/
def msWins : List MatchRow :=
  [⟨1, 2020, "C", "T1", "T2", "T1", "T1", "P", "V"⟩,
   ⟨2, 2020, "C", "T1", "T2", "T2", "No Result", "None", "V"⟩]

/-- Witness for C6: team "T1" has 2 matches, 1 win, and the loss series
holds 1. -/
theorem wins_losses_matches_spec_witness :
    (team_matches_kpi msWins).lookup "T1" = some 2
    ∧ (losses_series msWins).lookup "T1" = some (some 1)
    ∧ (most_wins_kpi msWins).lookup "T1" = some 1 := by
  obtain ⟨h1, h2, _, h4, _⟩ :=
    wins_losses_matches_spec msWins "T1" (by decide)
  exact ⟨h1.trans (by decide), h2.trans (by decide),
    (h4 (by decide)).trans (by decide)⟩

/-! #### Highest team totals (C8) -/

instance : IsTotal TTRow ttDesc :=
  ⟨fun a b => le_total b.total_runs a.total_runs⟩

instance : IsTrans TTRow ttDesc :=
  ⟨fun _ _ _ hab hbc => le_trans hbc hab⟩

/-- Every base group row's total is the sum of `total_runs` over its
deliveries. -/
theorem team_totals_base_sum {ds : List Delivery} {g : Int × String × Int}
    (hg : g ∈ team_totals_base ds) :
    g.2.2 = ((ds.filter (fun d =>
      decide (d.match_id = g.1) && decide (d.batting_team = g.2.1))).map
        (fun d => d.total_runs)).sum := by
  unfold team_totals_base at hg
  obtain ⟨p, _, hpg⟩ := List.mem_map.1 hg
  rw [← hpg]

/-- Every joined row keeps its group's key fields and total, and its
opponent is derived from some matching match row (or null when none). -/
theorem team_totals_joined_spec {ms : List MatchRow} {ds : List Delivery}
    {r : TTRow} (hr : r ∈ team_totals_joined ms ds) :
    (∃ g ∈ team_totals_base ds,
      r.match_id = g.1 ∧ r.batting_team = g.2.1 ∧ r.total_runs = g.2.2)
    ∧ (∀ m ∈ ms, m.id = r.match_id →
        r.opponent = (if m.team1 = r.batting_team then some m.team2
          else some m.team1) ∨
        ∃ m' ∈ ms, m' ≠ m ∧ m'.id = r.match_id ∧
          r.opponent = get_opponent r.batting_team (some m'.team1) (some m'.team2)) := by
  unfold team_totals_joined at hr
  obtain ⟨g, hg, hrg⟩ := List.mem_flatMap.1 hr
  unfold joinOpponent at hrg
  by_cases he : (ms.filter (fun m => decide (m.id = g.1))).isEmpty
  · rw [if_pos he] at hrg
    simp only [List.mem_singleton] at hrg
    subst hrg
    refine ⟨⟨g, hg, rfl, rfl, rfl⟩, ?_⟩
    intro m hm hid
    exfalso
    rw [List.isEmpty_iff] at he
    have : m ∈ ms.filter (fun m => decide (m.id = g.1)) :=
      List.mem_filter.2 ⟨hm, by simpa using hid⟩
    rw [he] at this
    simp at this
  · rw [if_neg he] at hrg
    obtain ⟨m', hm', hmr⟩ := List.mem_map.1 hrg
    obtain ⟨hm'ms, hm'id⟩ := List.mem_filter.1 hm'
    subst hmr
    refine ⟨⟨g, hg, rfl, rfl, rfl⟩, ?_⟩
    intro m hm hid
    by_cases hmm : m' = m
    · left
      subst hmm
      show get_opponent g.2.1 (some m'.team1) (some m'.team2) = _
      unfold get_opponent
      by_cases ht : m'.team1 = g.2.1
      · rw [if_pos (by rw [ht]), if_pos ht]
      · rw [if_neg (by simpa using ht), if_neg ht]
    · right
      exact ⟨m', hm'ms, hmm, by simpa using hm'id, rfl⟩

/-- C8: with distinct match ids, `highest_team_totals` is the top 10 of the
per-(match, batting team) totals sorted descending: row totals are the
summed `total_runs` of the group's deliveries, each row's opponent is the
other team of its match row, rows are pairwise descending, and every group
left out has a total no larger than any row kept. -/
theorem highest_team_totals_spec (ms : List MatchRow) (ds : List Delivery)
    (hids : (ms.map (fun m => m.id)).Nodup) :
    (highest_team_totals ms ds).length = min 10 (team_totals_joined ms ds).length
    ∧ (highest_team_totals ms ds).Pairwise ttDesc
    ∧ (∀ r ∈ highest_team_totals ms ds,
        r.total_runs = ((ds.filter (fun d =>
          decide (d.match_id = r.match_id) &&
            decide (d.batting_team = r.batting_team))).map
            (fun d => d.total_runs)).sum)
    ∧ (∀ r ∈ highest_team_totals ms ds, ∀ m ∈ ms, m.id = r.match_id →
        r.opponent = (if m.team1 = r.batting_team then some m.team2
          else some m.team1))
    ∧ (∀ g ∈ team_totals_joined ms ds, g ∉ highest_team_totals ms ds →
        ∀ r ∈ highest_team_totals ms ds, g.total_runs ≤ r.total_runs) := by
  have hperm := List.perm_insertionSort ttDesc (team_totals_joined ms ds)
  have hsor : (List.insertionSort ttDesc (team_totals_joined ms ds)).Sorted ttDesc :=
    List.sorted_insertionSort ttDesc (team_totals_joined ms ds)
  have hmem_joined : ∀ r ∈ highest_team_totals ms ds, r ∈ team_totals_joined ms ds := by
    intro r hr
    exact hperm.mem_iff.1 (List.mem_of_mem_take hr)
  have hnodup_unique : ∀ r ∈ team_totals_joined ms ds, ∀ m ∈ ms,
      m.id = r.match_id →
      r.opponent = (if m.team1 = r.batting_team then some m.team2
        else some m.team1) := by
    intro r hr m hm hid
    rcases (team_totals_joined_spec hr).2 m hm hid with h | ⟨m', hm', hne, hid', _⟩
    · exact h
    · exfalso
      exact hne (List.inj_on_of_nodup_map hids hm' hm (by rw [hid', hid]))
  refine ⟨?_, ?_, ?_, ?_, ?_⟩
  · unfold highest_team_totals
    rw [List.length_take, List.length_insertionSort]
  · exact List.Pairwise.sublist (List.take_sublist 10 _) hsor
  · intro r hr
    obtain ⟨⟨g, hg, h1, h2, h3⟩, _⟩ := team_totals_joined_spec (hmem_joined r hr)
    rw [h3, team_totals_base_sum hg, h1, h2]
  · intro r hr
    exact hnodup_unique r (hmem_joined r hr)
  · intro g hg hgo r hr
    have hg' : g ∈ List.insertionSort ttDesc (team_totals_joined ms ds) :=
      hperm.mem_iff.2 hg
    rw [← List.take_append_drop 10
      (List.insertionSort ttDesc (team_totals_joined ms ds))] at hg'
    rcases List.mem_append.1 hg' with h | h
    · exact absurd h hgo
    · have hpw := hsor
      rw [List.Sorted, ← List.take_append_drop 10
        (List.insertionSort ttDesc (team_totals_joined ms ds)),
        List.pairwise_append] at hpw
      exact hpw.2.2 r hr g h

/-- Sample inputs for the C8 witness: one match, two batting innings. -/
def msTT : List MatchRow :=
  [⟨1, 2020, "C", "T1", "T2", "T1", "T1", "P", "V"⟩]

def dsTT : List Delivery :=
  [⟨1, 2020, "A", "X", 4, 5, "None", "None", none, "T1"⟩,
   ⟨1, 2020, "B", "Y", 2, 3, "None", "None", none, "T2"⟩]

/-- Witness for C8: both innings rows are returned and the T1 row's
opponent is T2. -/
theorem highest_team_totals_spec_witness :
    (highest_team_totals msTT dsTT).length = 2
    ∧ (⟨1, "T1", some "T2", 5⟩ : TTRow).opponent = some "T2" := by
  obtain ⟨hlen, _, _, hopp, _⟩ :=
    highest_team_totals_spec msTT dsTT (by decide)
  refine ⟨hlen.trans (by decide), ?_⟩
  have := hopp ⟨1, "T1", some "T2", 5⟩ (by decide)
    ⟨1, 2020, "C", "T1", "T2", "T1", "T1", "P", "V"⟩ (by decide) (by decide)
  exact this.trans (by decide)

/-! #### Cumulative runs are non-decreasing (C9) -/

theorem cumsumFrom_head_ge (l : List Int) (acc : Int) (h : ∀ x ∈ l, 0 ≤ x) :
    ∀ y ∈ (cumsumFrom acc l).head?, acc ≤ y := by
  cases l with
  | nil => intro y hy; simp [cumsumFrom] at hy
  | cons z zs =>
    intro y hy
    simp only [cumsumFrom, List.head?_cons, Option.mem_def,
      Option.some.injEq] at hy
    have := h z (List.mem_cons_self z zs)
    omega

theorem cumsumFrom_chain (l : List Int) :
    ∀ acc : Int, (∀ x ∈ l, 0 ≤ x) → (cumsumFrom acc l).Chain' (· ≤ ·) := by
  induction l with
  | nil => intro acc _; simp [cumsumFrom]
  | cons x xs ih =>
    intro acc h
    show List.Chain' (· ≤ ·) ((acc + x) :: cumsumFrom (acc + x) xs)
    apply List.chain'_cons'.2
    refine ⟨?_, ih (acc + x) (fun z hz => h z (List.mem_cons_of_mem x hz))⟩
    intro y hy
    exact cumsumFrom_head_ge xs (acc + x)
      (fun z hz => h z (List.mem_cons_of_mem x hz)) y hy

/-- Per-season run totals are non-negative when every ball's
`batsman_runs` is. -/
theorem runs_per_season_nonneg {ds : List Delivery}
    (hnn : ∀ d ∈ ds, 0 ≤ d.batsman_runs) :
    ∀ r ∈ runs_per_season ds, 0 ≤ r.2.2 := by
  intro r hr
  unfold runs_per_season pairAgg at hr
  obtain ⟨p, _, hpr⟩ := List.mem_map.1 hr
  rw [← hpr]
  apply List.sum_nonneg
  intro x hx
  obtain ⟨d, hd, hdx⟩ := List.mem_map.1 hx
  rw [← hdx]
  exact hnn d (List.mem_filter.1 hd).1

theorem pivot_cell_nonneg {ds : List Delivery}
    (hnn : ∀ d ∈ ds, 0 ≤ d.batsman_runs) (s : Int) (b : String) :
    0 ≤ pivot_cell ds s b := by
  unfold pivot_cell
  cases hl : ((cum_filtered ds).filter (fun r =>
      decide (r.1 = s) && decide (r.2.1 = b))).map (fun r => r.2.2) with
  | nil => simp
  | cons v vs =>
    show 0 ≤ (v :: vs).headD 0
    have hv : v ∈ ((cum_filtered ds).filter (fun r =>
        decide (r.1 = s) && decide (r.2.1 = b))).map (fun r => r.2.2) := by
      rw [hl]
      exact List.mem_cons_self v vs
    obtain ⟨r, hr, hrv⟩ := List.mem_map.1 hv
    have hrf : r ∈ cum_filtered ds := (List.mem_filter.1 hr).1
    have hrps : r ∈ runs_per_season ds := (List.mem_filter.1 hrf).1
    rw [show (v :: vs).headD 0 = v from rfl, ← hrv]
    exact runs_per_season_nonneg hnn r hrps

/-- C9: if every per-ball `batsman_runs` is non-negative, then every
column of the `cumulative_runs` pivot (one per top-5 batter, running-summed
down ascending seasons) is non-decreasing. -/
theorem cumulative_runs_monotone (ds : List Delivery)
    (hnn : ∀ d ∈ ds, 0 ≤ d.batsman_runs) :
    ∀ col ∈ cumulative_runs_kpi ds, col.2.Chain' (· ≤ ·) := by
  intro col hcol
  unfold cumulative_runs_kpi at hcol
  obtain ⟨b, _, hbc⟩ := List.mem_map.1 hcol
  rw [← hbc]
  show (cum_column ds b).Chain' (· ≤ ·)
  unfold cum_column cumsum
  apply cumsumFrom_chain
  intro x hx
  obtain ⟨s, _, hsx⟩ := List.mem_map.1 hx
  rw [← hsx]
  exact pivot_cell_nonneg hnn s b

/-- Sample deliveries for the C9 witness. -/
def dsCum : List Delivery :=
  [⟨1, 2020, "A", "X", 3, 3, "None", "None", none, "T1"⟩,
   ⟨2, 2021, "A", "X", 2, 2, "None", "None", none, "T1"⟩]

/-- Witness for C9: the single cumulative column `[3, 5]` is
non-decreasing. -/
theorem cumulative_runs_monotone_witness :
    (∀ d ∈ dsCum, 0 ≤ d.batsman_runs) ∧
      List.Chain' (· ≤ ·) (("A", ([3, 5] : List Int)) : String × List Int).2 :=
  ⟨by decide,
    cumulative_runs_monotone dsCum (by decide) ("A", ([3, 5] : List Int))
      (by decide)⟩

/-! ### The `calculate_kpis` error-handling skeleton (C1)

`calculate_kpis` wraps each KPI block in its own `try/except`, catching a
specific exception class (`KeyError` for missing columns, `NameError` for
a variable left unbound by an earlier failed block, plus `ValueError` for
the pivot).  An exception not matched by the block's `except` clause
reaches the outer `except Exception`, which re-raises — aborting the whole
function.  The model tracks column presence per table; reading a missing
column raises `KeyError`.  The outer re-raise is modelled as error
propagation (Python wraps the message but still raises). -/

inductive PyErr where
  | keyError
  | nameError
  | valueError
deriving DecidableEq, Repr

/-- The matches table with column-presence flags for each column
`calculate_kpis` reads. -/
structure MTable where
  rows : List MatchRow
  hasId : Bool
  hasTeam1 : Bool
  hasTeam2 : Bool
  hasWinner : Bool
  hasTossWinner : Bool
  hasPlayerOfMatch : Bool
  hasVenue : Bool
deriving DecidableEq, Repr

/-- The deliveries table with column-presence flags. -/
structure DTable where
  rows : List Delivery
  hasMatchId : Bool
  hasSeason : Bool
  hasBatter : Bool
  hasBowler : Bool
  hasBatsmanRuns : Bool
  hasTotalRuns : Bool
  hasDismissalKind : Bool
  hasPlayerDismissed : Bool
  hasFielder : Bool
  hasBattingTeam : Bool
deriving DecidableEq, Repr

/-- The full KPI mapping, one field per `kpis[...]` key, in dict insertion
order. -/
structure Kpis where
  total_matches : Nat
  team_matches : List (String × Int)
  most_wins : List (String × Int)
  most_losses : List (String × Option Int)
  toss_wins : List (String × Int)
  most_toss_wins : List (String × Int)
  orange_cap : List (Int × String × Int)
  purple_cap : List (Int × String × Int)
  most_runs_total : List (String × Int)
  most_wickets_total : List (String × Int)
  most_sixes : List (String × Int)
  most_sixes_per_season : List (Int × String × Int)
  most_fours : List (String × Int)
  most_fours_per_season : List (Int × String × Int)
  most_catches : List (String × Int)
  most_stumps : List (String × Int)
  most_run_outs : List (String × Int)
  most_matches_played : List (String × Int)
  highest_team_totals : List TTRow
  most_pom_awards : List (String × Int)
  stadium_matches : List (String × Int)
  cumulative_runs : List (String × List Int)
deriving DecidableEq, Repr

/-- Reading a column: `KeyError` when absent. -/
def need (b : Bool) : Except PyErr Unit :=
  if b then .ok () else .error .keyError

/-- One `try/except` block: a raised error is swallowed (yielding the
default) only when the block's `except` clause matches it. -/
def tryE (handles : PyErr → Bool) (x : Except PyErr α) (dflt : α) :
    Except PyErr α :=
  match x with
  | .ok v => .ok v
  | .error e => if handles e then .ok dflt else .error e

def onlyKey : PyErr → Bool := fun e => e == .keyError

def onlyName : PyErr → Bool := fun e => e == .nameError

def keyOrValue : PyErr → Bool := fun e => e == .keyError || e == .valueError

/-- `calculate_kpis` (`data_processor.py`, lines 4–178). -/
def calculate_kpis (mt : MTable) (dt : DTable) : Except PyErr Kpis := do
  -- lines 10–14: shape[0] cannot raise
  let totalMatches := mt.rows.length
  -- lines 17–21
  let teamMatches ← tryE onlyKey
    (do
      let _ ← need mt.hasTeam1
      let _ ← need mt.hasTeam2
      pure (team_matches_kpi mt.rows)) []
  -- lines 24–29; `team_wins` is bound only if the winner column exists
  let teamWins? : Option (List (String × Int)) :=
    if mt.hasWinner then some (team_wins_kpi mt.rows) else none
  let mostWins ← tryE onlyKey
    (do
      let _ ← need mt.hasWinner
      pure (most_wins_kpi mt.rows)) []
  -- lines 32–36: only NameError (unbound `team_wins`) is handled
  let mostLosses ← tryE onlyName
    (match teamWins? with
     | some tw =>
        pure ((List.insertionSort
          (fun a b : String × Option Int => naDescLeB a.2 b.2 = true)
          (seriesFillna (seriesSub teamMatches tw) teamMatches)).take 1)
     | none => .error .nameError) []
  -- lines 39–45: one block sets both toss KPIs
  let (tossWins, mostTossWins) ← tryE onlyKey
    (do
      let _ ← need mt.hasTossWinner
      pure (toss_wins_kpi mt.rows, most_toss_wins_kpi mt.rows)) ([], [])
  -- lines 48–53
  let orangeCap ← tryE onlyKey
    (do
      let _ ← need dt.hasSeason
      let _ ← need dt.hasBatter
      let _ ← need dt.hasBatsmanRuns
      pure (orange_cap dt.rows)) []
  -- lines 56–62; `wickets` is bound iff line 57 succeeded
  let wickets? : Option (List Delivery) :=
    if dt.hasDismissalKind then some (wicketsOf dt.rows) else none
  let purpleCap ← tryE onlyKey
    (do
      let _ ← need dt.hasDismissalKind
      let _ ← need dt.hasSeason
      let _ ← need dt.hasBowler
      let _ ← need dt.hasPlayerDismissed
      pure (purple_cap dt.rows)) []
  -- lines 65–69
  let mostRuns ← tryE onlyKey
    (do
      let _ ← need dt.hasBatter
      let _ ← need dt.hasBatsmanRuns
      pure (most_runs_total dt.rows)) []
  -- lines 72–76: groupby on `wickets`; only NameError is handled, so a
  -- KeyError from a missing bowler/player_dismissed column escapes
  let mostWickets ← tryE onlyName
    (match wickets? with
     | some w => do
        let _ ← need dt.hasBowler
        let _ ← need dt.hasPlayerDismissed
        pure (most_wickets_total w)
     | none => .error .nameError) []
  -- lines 79–87
  let (mostSixes, sixesSeason) ← tryE onlyKey
    (do
      let _ ← need dt.hasBatsmanRuns
      let _ ← need dt.hasBatter
      let _ ← need dt.hasSeason
      pure (most_sixes_kpi dt.rows, most_sixes_per_season dt.rows)) ([], [])
  -- lines 90–98
  let (mostFours, foursSeason) ← tryE onlyKey
    (do
      let _ ← need dt.hasBatsmanRuns
      let _ ← need dt.hasBatter
      let _ ← need dt.hasSeason
      pure (most_fours_kpi dt.rows, most_fours_per_season dt.rows)) ([], [])
  -- lines 101–106
  let mostCatches ← tryE onlyKey
    (do
      let _ ← need dt.hasDismissalKind
      let _ ← need dt.hasFielder
      let _ ← need dt.hasPlayerDismissed
      pure (most_catches dt.rows)) []
  -- lines 109–114
  let mostStumps ← tryE onlyKey
    (do
      let _ ← need dt.hasDismissalKind
      let _ ← need dt.hasFielder
      let _ ← need dt.hasPlayerDismissed
      pure (most_stumps dt.rows)) []
  -- lines 117–122
  let mostRunOuts ← tryE onlyKey
    (do
      let _ ← need dt.hasDismissalKind
      let _ ← need dt.hasFielder
      let _ ← need dt.hasPlayerDismissed
      pure (most_run_outs dt.rows)) []
  -- lines 125–130
  let matchesPlayed ← tryE onlyKey
    (do
      let _ ← need dt.hasBatter
      let _ ← need dt.hasMatchId
      pure (most_matches_played dt.rows)) []
  -- lines 133–147
  let highestTT ← tryE onlyKey
    (do
      let _ ← need mt.hasId
      let _ ← need mt.hasTeam1
      let _ ← need mt.hasTeam2
      let _ ← need dt.hasMatchId
      let _ ← need dt.hasBattingTeam
      let _ ← need dt.hasTotalRuns
      pure (highest_team_totals mt.rows dt.rows)) []
  -- lines 150–154
  let pomAwards ← tryE onlyKey
    (do
      let _ ← need mt.hasPlayerOfMatch
      pure (most_pom_awards mt.rows)) []
  -- lines 157–161
  let stadium ← tryE onlyKey
    (do
      let _ ← need mt.hasVenue
      pure (stadium_matches mt.rows)) []
  -- lines 164–173: KeyError and ValueError handled
  let cumulative ← tryE keyOrValue
    (do
      let _ ← need dt.hasSeason
      let _ ← need dt.hasBatter
      let _ ← need dt.hasBatsmanRuns
      pure (cumulative_runs_kpi dt.rows)) []
  .ok ⟨totalMatches, teamMatches, mostWins, mostLosses, tossWins, mostTossWins,
    orangeCap, purpleCap, mostRuns, mostWickets, mostSixes, sixesSeason,
    mostFours, foursSeason, mostCatches, mostStumps, mostRunOuts,
    matchesPlayed, highestTT, pomAwards, stadium, cumulative⟩

/-- A matches table with all columns present. -/
def mtC1 : MTable :=
  ⟨[⟨1, 2020, "C", "T1", "T2", "T1", "T1", "P", "V"⟩],
    true, true, true, true, true, true, true⟩

/-- A deliveries table with every expected column except `bowler`. -/
def dtNoBowler : DTable :=
  ⟨[⟨1, 2020, "A", "X", 1, 1, "caught", "A", some "F", "T1"⟩],
    true, true, true, false, true, true, true, true, true, true⟩

/-- The same deliveries table with all columns present. -/
def dtFull : DTable :=
  ⟨[⟨1, 2020, "A", "X", 1, 1, "caught", "A", some "F", "T1"⟩],
    true, true, true, true, true, true, true, true, true, true⟩

/-- C1 (claim refuted; the spec's isolation contract is the intent and the
code violates it): when the deliveries table has `dismissal_kind` but no
`bowler` column, the purple-cap block's `KeyError` is caught — leaving
`wickets` bound — and the `most_wickets_total` block then raises a
`KeyError` that its `except NameError` does not match, aborting
`calculate_kpis` entirely; with all columns present the function
returns a full mapping. -/
theorem calculate_kpis_missing_bowler_aborts :
    calculate_kpis mtC1 dtNoBowler = .error .keyError
    ∧ (calculate_kpis mtC1 dtFull).isOk = true :=
  ⟨rfl, rfl⟩

/-! ### `save_precomputed_stats` (C10)

```python
for key, data in kpis.items():
    if isinstance(data, (pd.DataFrame, pd.Series)) and not data.empty:
        data.to_json(f'../data/precomputed_stats/{key}.json')
```
The mapping's values are tagged by their Python runtime type: the scalar
`total_matches` (an `int`) versus the Series/DataFrame KPIs. -/

inductive KpiVal where
  | numI : Nat → KpiVal
  | ser : List (String × Int) → KpiVal
  | serO : List (String × Option Int) → KpiVal
  | cap : List (Int × String × Int) → KpiVal
  | tt : List TTRow → KpiVal
  | grid : List (String × List Int) → KpiVal
deriving DecidableEq, Repr

/-- `isinstance(data, (pd.DataFrame, pd.Series))`. -/
def KpiVal.isTable : KpiVal → Bool
  | .numI _ => false
  | _ => true

/-- `data.empty` (a pivot frame is empty when it has no columns or no
rows). -/
def KpiVal.isEmptyV : KpiVal → Bool
  | .numI _ => false
  | .ser l => l.isEmpty
  | .serO l => l.isEmpty
  | .cap l => l.isEmpty
  | .tt l => l.isEmpty
  | .grid l => l.isEmpty || l.all (fun c => c.2.isEmpty)

/-- `kpis.items()` in dict insertion order. -/
def kpiEntries (k : Kpis) : List (String × KpiVal) :=
  [("total_matches", .numI k.total_matches),
   ("team_matches", .ser k.team_matches),
   ("most_wins", .ser k.most_wins),
   ("most_losses", .serO k.most_losses),
   ("toss_wins", .ser k.toss_wins),
   ("most_toss_wins", .ser k.most_toss_wins),
   ("orange_cap", .cap k.orange_cap),
   ("purple_cap", .cap k.purple_cap),
   ("most_runs_total", .ser k.most_runs_total),
   ("most_wickets_total", .ser k.most_wickets_total),
   ("most_sixes", .ser k.most_sixes),
   ("most_sixes_per_season", .cap k.most_sixes_per_season),
   ("most_fours", .ser k.most_fours),
   ("most_fours_per_season", .cap k.most_fours_per_season),
   ("most_catches", .ser k.most_catches),
   ("most_stumps", .ser k.most_stumps),
   ("most_run_outs", .ser k.most_run_outs),
   ("most_matches_played", .ser k.most_matches_played),
   ("highest_team_totals", .tt k.highest_team_totals),
   ("most_pom_awards", .ser k.most_pom_awards),
   ("stadium_matches", .ser k.stadium_matches),
   ("cumulative_runs", .grid k.cumulative_runs)]

/-- The keys whose values pass the `isinstance`-and-nonempty test. -/
def savedKeys (k : Kpis) : List String :=
  ((kpiEntries k).filter (fun p => p.2.isTable && !p.2.isEmptyV)).map
    (fun p => p.1)

/-- The artifact names `save_precomputed_stats` writes. -/
def save_precomputed_stats (k : Kpis) : List String :=
  (savedKeys k).map (fun key => key ++ ".json")

theorem savedKeys_mem (k : Kpis) (key : String) :
    key ∈ savedKeys k ↔
      ∃ v, (key, v) ∈ kpiEntries k ∧ v.isTable = true ∧ v.isEmptyV = false := by
  unfold savedKeys
  constructor
  · intro h
    obtain ⟨p, hp, hpk⟩ := List.mem_map.1 h
    obtain ⟨hent, hpred⟩ := List.mem_filter.1 hp
    rw [Bool.and_eq_true, Bool.not_eq_true'] at hpred
    exact ⟨p.2, by rw [← hpk]; exact hent, hpred.1, hpred.2⟩
  · rintro ⟨v, hent, ht, he⟩
    exact List.mem_map.2 ⟨(key, v),
      List.mem_filter.2 ⟨hent, by rw [Bool.and_eq_true, Bool.not_eq_true']; exact ⟨ht, he⟩⟩,
      rfl⟩

/-- A sample KPI mapping where every table KPI is non-empty and the match
count is non-zero. -/
def kpisCex : Kpis :=
  ⟨5, [("T1", 1)], [("T1", 1)], [("T1", some 1)], [("T1", 1)], [("T1", 1)],
    [(2020, "A", 1)], [(2020, "X", 1)], [("A", 1)], [("X", 1)], [("A", 1)],
    [(2020, "A", 1)], [("A", 1)], [(2020, "A", 1)], [("F", 1)], [("F", 1)],
    [("F", 1)], [("A", 1)], [⟨1, "T1", some "T2", 5⟩], [("A", 1)],
    [("V", 1)], [("A", [1])]⟩

/-- C10 (claim refuted): `total_matches` is a plain `int`, so it fails the
`isinstance` test and no file is ever written for it, even when it is
non-zero and every other KPI is non-empty. -/
theorem save_skips_total_matches_counterexample :
    kpisCex.total_matches = 5 ∧
      "total_matches.json" ∉ save_precomputed_stats kpisCex := by
  constructor
  · rfl
  · decide

/-- C10 (amended): `save_precomputed_stats` writes exactly one artifact,
named `<key>.json`, for each KPI whose value is a non-empty Series or
DataFrame; the scalar `total_matches` is never written because it fails
the `isinstance` check. -/
theorem save_precomputed_stats_spec (k : Kpis) :
    ("total_matches" ∉ savedKeys k)
    ∧ (∀ key, key ∈ savedKeys k ↔
        ∃ v, (key, v) ∈ kpiEntries k ∧ v.isTable = true ∧ v.isEmptyV = false)
    ∧ save_precomputed_stats k = (savedKeys k).map (fun key => key ++ ".json") := by
  refine ⟨?_, savedKeys_mem k, rfl⟩
  intro hmem
  obtain ⟨v, hent, ht, _⟩ := (savedKeys_mem k "total_matches").1 hmem
  simp only [kpiEntries, List.mem_cons, Prod.mk.injEq, List.not_mem_nil,
    or_false] at hent
  rcases hent with ⟨_, hv⟩ | hrest
  · rw [hv] at ht
    exact absurd ht (by simp [KpiVal.isTable])
  · simp at hrest

/-- Witness for C10 at the sample mapping: `team_matches` is saved. -/
theorem save_precomputed_stats_spec_witness :
    "total_matches" ∉ savedKeys kpisCex ∧ "team_matches" ∈ savedKeys kpisCex := by
  refine ⟨(save_precomputed_stats_spec kpisCex).1, ?_⟩
  apply ((save_precomputed_stats_spec kpisCex).2.1 "team_matches").2
  exact ⟨.ser [("T1", 1)], by decide, by decide, by decide⟩

end IPL
